import Mathlib

/-!
# Verification of the z-pulse daily-briefing synthesis pipeline

Shallow embedding of `backend/app/services/daily_briefing/` (generator.py,
guardrails.py, hotspots.py, nlp.py, prompts.py) and proofs of the spec's
testable properties.

Modelling conventions:
* Python `str` is Lean `String`; regex scans are hand-rolled deterministic
  scanners over `List Char` reproducing `re.finditer` / `re.sub` semantics
  of the concrete patterns in the source.
* Python dicts keyed by `int` are association lists `List (Int × _)`;
  dict *assignment* overwrites, so lookup takes the **last** binding.
* LLM chat calls are oracles: each call site takes the (parsed) response as
  a function argument.  Call failure / malformed JSON is the `none` / empty
  response, exactly the fallback the `except` branches produce.
* `clean_text` applies an environment-injected list of boilerplate kill
  patterns (`load_wechat_kill_patterns` reads env vars and files); it is
  threaded as an explicit function parameter, per the spec's injected-
  configuration model.
* Floats only occur in `_score_item` (`tag_sum*10 + rec + mark` with
  `rec ∈ {3.0,2.0,1.0,0.2}` and `mark ∈ {1.2, 0.0}`); all attainable values
  are order-isomorphic to the integers `tag_sum*100 + rec*10 + mark*10`,
  which is what the embedding computes.
-/

namespace ZPulse

set_option maxHeartbeats 1000000

/-! ## Generic list machinery

`addUnseen` is the `for v in xs: if v not in seen: seen.add(v); out.append(v)`
idiom used by `_normalize_sources_and_citations` (both for `consume` and for
`remap_list`).  `dedupF` is the same first-occurrence deduplication in a form
convenient for induction. -/

def addUnseen (acc : List Int) : List Int → List Int
  | [] => acc
  | v :: vs => if v ∈ acc then addUnseen acc vs else addUnseen (acc ++ [v]) vs

def dedupF : List Int → List Int
  | [] => []
  | x :: xs => x :: dedupF (xs.filter (fun y => y ≠ x))
termination_by l => l.length
decreasing_by
  simp only [List.length_cons]
  exact Nat.lt_succ_of_le (List.length_filter_le _ _)

/-- Concatenation of a list of lists (citation arrays, batch chunks). -/
def listFlat {α : Type} : List (List α) → List α
  | [] => []
  | l :: ls => l ++ listFlat ls

/-! ## Stable sorting

Python's `list.sort(key=k, reverse=True)` is a stable descending sort by an
(order-isomorphic image of the) key.  `sortDesc` is the standard stable
insertion sort: an element is inserted *before* the first element whose key
is `≤` its own, so earlier elements stay first among equal keys. -/

def insertDesc {α : Type} (key : α → Int) (x : α) : List α → List α
  | [] => [x]
  | y :: ys => if key y ≤ key x then x :: y :: ys else y :: insertDesc key x ys

def sortDesc {α : Type} (key : α → Int) : List α → List α
  | [] => []
  | x :: xs => insertDesc key x (sortDesc key xs)

/-! ## Association lists for Python dicts

A dict built by repeated assignment (`d[k] = v` in a loop) keeps the **last**
binding for a key; `lookupLast` reproduces `d.get(k)` for such a dict.
`lookupFirst` is ordinary first-binding association lookup. -/

def lookupLast {β : Type} : List (Int × β) → Int → Option β
  | [], _ => none
  | (k, v) :: rest, key =>
    match lookupLast rest key with
    | some w => some w
    | none => if k = key then some v else none

def lookupFirst {β : Type} : List (Int × β) → Int → Option β
  | [], _ => none
  | (k, v) :: rest, key => if k = key then some v else lookupFirst rest key

/-! ## Python string primitives -/

/-- Python's `\s` for the characters that occur in this code base
(ASCII whitespace plus NBSP and the ideographic space). -/
def isPySpace (c : Char) : Bool :=
  c = ' ' || c = '\t' || c = '\n' || c = '\r' || c.toNat = 11 || c.toNat = 12 ||
    c.toNat = 0xa0 || c.toNat = 0x3000

/-- Python's `\w` for the character classes that occur here: ASCII
alphanumerics, underscore, and CJK ideographs (which are word characters for
Python's unicode `re`). -/
def isWordChar (c : Char) : Bool :=
  (c.isAlpha || c.isDigit) || c = '_' || (0x4e00 ≤ c.toNat && c.toNat ≤ 0x9fff)

/-- `str.strip()` on a char list. -/
def pyStripL (cs : List Char) : List Char :=
  ((cs.dropWhile isPySpace).reverse.dropWhile isPySpace).reverse

def pyStrip (s : String) : String :=
  String.mk (pyStripL s.data)

/-- Does `pat` occur at the head of `hay`? -/
def headMatches : List Char → List Char → Bool
  | [], _ => true
  | _ :: _, [] => false
  | p :: ps, h :: hs => p = h && headMatches ps hs

/-- Python's `pat in hay` substring test. -/
def hasSub (hay pat : List Char) : Bool :=
  match hay with
  | [] => headMatches pat []
  | _ :: rest => headMatches pat hay || hasSub rest pat

def strContains (hay pat : String) : Bool :=
  hasSub hay.data pat.data

/-! ## Data model (shared.database.Article, read-only fields used here) -/

structure Article where
  id : Int
  title : String
  content : String
  /-- `article.account.name`, `""` when the relation or name is missing. -/
  account : String
  /-- `article.article_url`. -/
  article_url : String
  /-- `published_at` as naive-UTC seconds since the epoch; `none` = NULL. -/
  published_at : Option Int
  deriving Repr, DecidableEq, Inhabited

/-! ## nlp.py: finance keyword vocabulary and hit counting -/

def DEFAULT_FINANCE_KEYWORDS : List String :=
  ["财政", "预算", "决算", "预算执行", "转移支付", "专项债", "国债", "债券",
   "税收", "税务", "减税", "降费", "收费", "补贴", "补助", "津贴", "救助",
   "低保", "医保", "社保", "公积金", "政府采购", "招标", "投标", "中标",
   "审计", "国资", "国企", "财政资金", "专项资金", "经费", "拨款", "绩效"]

/-- `finance_keyword_hits`: number of vocabulary words occurring (as
substrings) in `text`; each word counts once. -/
def finance_keyword_hits (keywords : List String) (text : String) : Nat :=
  (keywords.filter (fun k => k ≠ "" && strContains text k)).length

/-- Keyword-hit count of one article over `title + "\n" + content`
(`_prefilter_articles` builds exactly this blob). -/
def articleHits (a : Article) : Nat :=
  finance_keyword_hits DEFAULT_FINANCE_KEYWORDS (a.title ++ "\n" ++ a.content)

/-! ## generator.py: `_prefilter_articles`

The Python builds `(hit_count, article)` pairs, stable-sorts them descending
by the count, filters by the configured minimum and falls back to the top
`min(len, 20)`; the pair decoration is only sort-key plumbing, so the
embedding sorts the articles directly with the same key. -/

def prefilterArticles (min_finance_kw_hits : Int) (articles : List Article) :
    List Article :=
  let key := fun a => (articleHits a : Int)
  let sorted := sortDesc key articles
  let kept := sorted.filter (fun a => min_finance_kw_hits ≤ key a)
  if 8 ≤ kept.length then kept
  else sorted.take (min sorted.length 20)

/-! ## Report document model (the briefing JSON)

`Doc` is the typed shape of the report object threaded through `generate`;
field names follow the JSON keys.  Dict rows (`by_the_numbers` items etc.)
become records. -/

structure BtnRow where
  indicator : String
  value : String
  note : String
  citations : List Int
  deriving Repr, DecidableEq, Inhabited

structure KwEntry where
  word : String
  weight : Int
  hotness : Int
  citations : Int
  source_ids : List Int
  snippets : List String
  deriving Repr, DecidableEq, Inhabited

structure RhwEntry where
  source_ids : List Int
  deriving Repr, DecidableEq, Inhabited

structure Hotspot where
  event : String
  hotness : Int
  source_ids : List Int
  coverage_docs : Int
  coverage_accounts : Int
  last_seen : String
  why_hot : String
  category : String
  deriving Repr, DecidableEq, Inhabited

structure SourceEntry where
  id : Int
  account : String
  title : String
  url : String
  date : String
  deriving Repr, DecidableEq, Inhabited

structure Header where
  title : String
  date : String
  lede : String
  lede_citations : List Int
  deriving Repr, DecidableEq, Inhabited

structure HotspotsMeta where
  window_days : Int
  total_hotspots : Int
  window_end_utc : String
  deriving Repr, DecidableEq, Inhabited

structure PerArticleSummary where
  source_id : Int
  title : String
  summary : String
  deriving Repr, DecidableEq, Inhabited

structure Doc where
  schema : String
  focus_topic : String
  visual_focus : String
  header : Header
  why_it_matters : String
  why_citations : List Int
  big_picture : String
  big_picture_citations : List Int
  by_the_numbers : List BtnRow
  word_cloud : List String
  keywords : List KwEntry
  hotwords : List String
  recent_hotwords : List RhwEntry
  recent_hotspots : List Hotspot
  recent_hotspots_meta : HotspotsMeta
  article_summaries : List PerArticleSummary
  focus_type : String
  focus_style : String
  lead_variant : String
  sources : List SourceEntry
  deriving Repr, DecidableEq, Inhabited

/-! ## Number-span scanners (guardrails.py / nlp.py)

Deterministic reimplementation of the `re.finditer` scans for the concrete
patterns in `extract_number_spans`, `_extract_number_spans_loose` and
`normalize_number_string`.  Python's `\d` also covers fullwidth digits. -/

def isPyDigit (c : Char) : Bool :=
  c.isDigit || (0xff10 ≤ c.toNat && c.toNat ≤ 0xff19)

/-- `re.sub(r"(\d),(?=\d{3}\b)", r"\1", t)`: lookahead of three digits
followed by a word boundary. -/
def thousandsAhead (l : List Char) : Bool :=
  match l with
  | a :: b :: c :: r =>
    isPyDigit a && isPyDigit b && isPyDigit c &&
      (match r with | [] => true | d :: _ => !isWordChar d)
  | _ => false

def stripThousandsL : List Char → List Char
  | [] => []
  | c :: ',' :: r2 =>
    if isPyDigit c && thousandsAhead r2 then c :: stripThousandsL r2
    else c :: stripThousandsL (',' :: r2)
  | c :: rest => c :: stripThousandsL rest

/-- Optional currency marker `(?:¥|￥|RMB|CNY)?` (alternatives in source
order). -/
def matchCurrency (cs : List Char) : List Char × List Char :=
  match cs with
  | '¥' :: r => (['¥'], r)
  | '￥' :: r => (['￥'], r)
  | 'R' :: 'M' :: 'B' :: r => (['R', 'M', 'B'], r)
  | 'C' :: 'N' :: 'Y' :: r => (['C', 'N', 'Y'], r)
  | _ => ([], cs)

/-- One anchored attempt of the generic numeric pattern
`prefix? \s* \d+ (\.\d+)? \s* unit(?)` at the head of `cs`.
`hasPre` selects the currency prefix + leading `\s*`; `needUnit` makes the
unit alternation mandatory (pattern 2) instead of optional (pattern 1).
Returns the matched span and the rest of the input. -/
def matchNumPat (hasPre needUnit : Bool) (units : List (List Char))
    (cs : List Char) : Option (List Char × List Char) :=
  let pr := if hasPre then matchCurrency cs else ([], cs)
  let sp1 := if hasPre then pr.2.takeWhile isPySpace else []
  let r2 := if hasPre then pr.2.dropWhile isPySpace else pr.2
  let ds := r2.takeWhile isPyDigit
  if ds.isEmpty then none
  else
    let r3 := r2.dropWhile isPyDigit
    let fr :=
      match r3 with
      | '.' :: t =>
        let fd := t.takeWhile isPyDigit
        if fd.isEmpty then (([] : List Char), r3)
        else ('.' :: fd, t.dropWhile isPyDigit)
      | _ => ([], r3)
    let sp2 := fr.2.takeWhile isPySpace
    let r5 := fr.2.dropWhile isPySpace
    match units.find? (fun u => headMatches u r5) with
    | some u => some (pr.1 ++ sp1 ++ ds ++ fr.1 ++ sp2 ++ u, r5.drop u.length)
    | none =>
      if needUnit then none else some (pr.1 ++ sp1 ++ ds ++ fr.1 ++ sp2, r5)

/-- `\d{1,2}` followed by a literal marker char (greedy, two digits first). -/
def matchTwoDigitMark (mark : Char) (cs : List Char) :
    Option (List Char × List Char) :=
  match cs with
  | a :: b :: m :: r =>
    if isPyDigit a && isPyDigit b && m = mark then some ([a, b, m], r)
    else if isPyDigit a && b = mark then some ([a, b], m :: r)
    else none
  | a :: b :: r =>
    if isPyDigit a && b = mark then some ([a, b], r) else none
  | _ => none

/-- Anchored attempt of `\d{4}年\d{1,2}月(\d{1,2}日)?` (pattern 3 with
`needDay`, pattern 4 without). -/
def matchDatePat (needDay : Bool) (cs : List Char) :
    Option (List Char × List Char) :=
  match cs with
  | a :: b :: c :: d :: y :: r =>
    if isPyDigit a && isPyDigit b && isPyDigit c && isPyDigit d && y = '年' then
      match matchTwoDigitMark '月' r with
      | none => none
      | some (mm, r2) =>
        if needDay then
          match matchTwoDigitMark '日' r2 with
          | none => none
          | some (dd, r3) => some ([a, b, c, d, y] ++ mm ++ dd, r3)
        else some ([a, b, c, d, y] ++ mm, r2)
    else none
  | _ => none

/-- `re.finditer` driver: at each position try the anchored matcher; on a
match, emit the span and resume after it, otherwise advance one character.
Fuel keeps the recursion total; every successful match consumes at least
one character (it always contains `\d+`), so `fuel = cs.length` runs the
scan to completion. -/
def scanAux (m : List Char → Option (List Char × List Char)) :
    Nat → List Char → List (List Char)
  | 0, _ => []
  | _, [] => []
  | fuel + 1, c :: rest =>
    match m (c :: rest) with
    | some (sp, r2) => sp :: scanAux m fuel r2
    | none => scanAux m fuel rest

def scanAll (m : List Char → Option (List Char × List Char))
    (cs : List Char) : List (List Char) :=
  scanAux m cs.length cs

def unitsFull : List (List Char) :=
  [('万' :: '亿' :: '元' :: []), ('亿' :: '元' :: []), ('万' :: '元' :: []),
   ('元' :: []), ('%' :: []), ('％' :: []), ('万' :: []), ('亿' :: [])]

def unitsPct : List (List Char) :=
  [('个' :: '百' :: '分' :: '点' :: []), ('%' :: []), ('％' :: [])]

def unitsLoose : List (List Char) :=
  unitsFull ++ [('个' :: '百' :: '分' :: '点' :: [])]

/-- Shared tail of both extractors: strip, require a digit, cap the length
at 40, first-occurrence dedupe; `max_items = 0` disables the early-stop
(`_extract_number_spans_loose` has no cap). -/
def collectSpans (useMax : Bool) (max_items : Nat) :
    List (List Char) → List String → List String
  | [], out => out
  | m :: rest, out =>
    let s := String.mk (pyStripL m)
    if !s.data.any isPyDigit then collectSpans useMax max_items rest out
    else if 40 < s.length then collectSpans useMax max_items rest out
    else if s ∈ out then collectSpans useMax max_items rest out
    else
      let out2 := out ++ [s]
      if useMax && max_items ≤ out2.length then out2
      else collectSpans useMax max_items rest out2

/-- `nlp.extract_number_spans(text, max_items)`. -/
def extract_number_spans (text : String) (max_items : Nat) : List String :=
  let t := stripThousandsL text.data
  collectSpans true max_items
    (scanAll (matchNumPat true false unitsFull) t ++
     scanAll (matchNumPat false true unitsPct) t ++
     scanAll (matchDatePat true) t ++
     scanAll (matchDatePat false) t) []

/-- `guardrails._extract_number_spans_loose(text)`. -/
def extractNumberSpansLoose (text : String) : List String :=
  let t := stripThousandsL text.data
  collectSpans false 0 (scanAll (matchNumPat true false unitsLoose) t) []

/-- Replace every (non-overlapping, left-to-right) occurrence of `pat` by
`rep` — Python `str.replace`.  Fuel-based so the kernel can evaluate it:
every replacement consumes `pat.length ≥ 1` characters, so
`fuel = cs.length` runs to completion. -/
def replaceSubAux (pat rep : List Char) : Nat → List Char → List Char
  | 0, cs => cs
  | _, [] => []
  | fuel + 1, c :: rest =>
    if !pat.isEmpty && headMatches pat (c :: rest) then
      rep ++ replaceSubAux pat rep fuel ((c :: rest).drop pat.length)
    else c :: replaceSubAux pat rep fuel rest

def replaceSub (cs pat rep : List Char) : List Char :=
  replaceSubAux pat rep cs.length cs

/-- `guardrails.normalize_number_string`. -/
def normalize_number_string (s : String) : String :=
  let t1 := pyStripL s.data
  let t2 := t1.filter (fun c => !isPySpace c)
  let t3 := stripThousandsL t2
  let t4 := replaceSub t3 ('￥' :: []) ('¥' :: [])
  let t5 := replaceSub t4 ('R' :: 'M' :: 'B' :: []) ('C' :: 'N' :: 'Y' :: [])
  String.mk t5

/-! ## guardrails.strip_unverified_numbers_from_by_the_numbers -/

/-- A row survives iff every loose number span of its value normalises into
the allowed set. -/
def rowVerified (allowedNorm : List String) (row : BtnRow) : Bool :=
  (extractNumberSpansLoose row.value).all
    (fun n => normalize_number_string n ∈ allowedNorm)

def joinCommaSp : List String → String
  | [] => ""
  | [s] => s
  | s :: rest => s ++ ", " ++ joinCommaSp rest

/-- The row loop of `strip_unverified_numbers_from_by_the_numbers`. -/
def stripUnverifiedRows (allowedNorm : List String) :
    List BtnRow → List BtnRow × List String
  | [] => ([], [])
  | row :: rest =>
    let nums := extractNumberSpansLoose row.value
    let bad := nums.filter (fun n => normalize_number_string n ∉ allowedNorm)
    let tl := stripUnverifiedRows allowedNorm rest
    if bad.isEmpty then (row :: tl.1, tl.2)
    else (tl.1, (row.indicator ++ ": " ++ joinCommaSp bad) :: tl.2)

def strip_unverified_numbers_from_by_the_numbers (report : Doc)
    (allowed_numbers : List String) : Doc × List String :=
  let allowedNorm := allowed_numbers.map normalize_number_string
  if report.by_the_numbers.isEmpty then (report, [])
  else
    let kd := stripUnverifiedRows allowedNorm report.by_the_numbers
    ({report with by_the_numbers := kd.1}, kd.2)

/-! ## Generic chunking (`need[i : i + batch_size]`, MD5 blocks)

Fuel-based so the kernel can evaluate it; for `n ≥ 1` the fuel
`l.length` is enough to consume the whole list. -/

def chunksOfAux {α : Type} (n : Nat) : Nat → List α → List (List α)
  | 0, _ => []
  | _, [] => []
  | fuel + 1, l => l.take n :: chunksOfAux n fuel (l.drop n)

def chunksOf {α : Type} (n : Nat) (l : List α) : List (List α) :=
  chunksOfAux n l.length l

/-! ## MD5 (hashlib.md5), needed by `_choose_focus_style`

`int(hashlib.md5(key).hexdigest(), 16)` is the digest read as a big-endian
128-bit number; the bytes themselves come out of the standard little-endian
MD5.  Everything is `Nat` arithmetic mod `2^32`. -/

def md5K : List Nat :=
  [0xd76aa478, 0xe8c7b756, 0x242070db, 0xc1bdceee, 0xf57c0faf, 0x4787c62a,
   0xa8304613, 0xfd469501, 0x698098d8, 0x8b44f7af, 0xffff5bb1, 0x895cd7be,
   0x6b901122, 0xfd987193, 0xa679438e, 0x49b40821, 0xf61e2562, 0xc040b340,
   0x265e5a51, 0xe9b6c7aa, 0xd62f105d, 0x02441453, 0xd8a1e681, 0xe7d3fbc8,
   0x21e1cde6, 0xc33707d6, 0xf4d50d87, 0x455a14ed, 0xa9e3e905, 0xfcefa3f8,
   0x676f02d9, 0x8d2a4c8a, 0xfffa3942, 0x8771f681, 0x6d9d6122, 0xfde5380c,
   0xa4beea44, 0x4bdecfa9, 0xf6bb4b60, 0xbebfbc70, 0x289b7ec6, 0xeaa127fa,
   0xd4ef3085, 0x04881d05, 0xd9d4d039, 0xe6db99e5, 0x1fa27cf8, 0xc4ac5665,
   0xf4292244, 0x432aff97, 0xab9423a7, 0xfc93a039, 0x655b59c3, 0x8f0ccc92,
   0xffeff47d, 0x85845dd1, 0x6fa87e4f, 0xfe2ce6e0, 0xa3014314, 0x4e0811a1,
   0xf7537e82, 0xbd3af235, 0x2ad7d2bb, 0xeb86d391]

def md5S : List Nat :=
  [7, 12, 17, 22, 7, 12, 17, 22, 7, 12, 17, 22, 7, 12, 17, 22,
   5, 9, 14, 20, 5, 9, 14, 20, 5, 9, 14, 20, 5, 9, 14, 20,
   4, 11, 16, 23, 4, 11, 16, 23, 4, 11, 16, 23, 4, 11, 16, 23,
   6, 10, 15, 21, 6, 10, 15, 21, 6, 10, 15, 21, 6, 10, 15, 21]

def rotl32 (x n : Nat) : Nat :=
  ((x <<< n) ||| (x >>> (32 - n))) % 4294967296

def md5Step (M : List Nat) (st : Nat × Nat × Nat × Nat) (i : Nat) :
    Nat × Nat × Nat × Nat :=
  let A := st.1
  let B := st.2.1
  let C := st.2.2.1
  let D := st.2.2.2
  let fg :=
    if i < 16 then ((B &&& C) ||| ((0xffffffff ^^^ B) &&& D), i)
    else if i < 32 then ((D &&& B) ||| ((0xffffffff ^^^ D) &&& C), (5 * i + 1) % 16)
    else if i < 48 then (B ^^^ C ^^^ D, (3 * i + 5) % 16)
    else (C ^^^ (B ||| (0xffffffff ^^^ D)), (7 * i) % 16)
  let F := (fg.1 + A + md5K.getD i 0 + M.getD fg.2 0) % 4294967296
  (D, (B + rotl32 F (md5S.getD i 0)) % 4294967296, B, C)

def md5Chunk (st : Nat × Nat × Nat × Nat) (M : List Nat) :
    Nat × Nat × Nat × Nat :=
  let r := (List.range 64).foldl (md5Step M) st
  ((st.1 + r.1) % 4294967296, (st.2.1 + r.2.1) % 4294967296,
   (st.2.2.1 + r.2.2.1) % 4294967296, (st.2.2.2 + r.2.2.2) % 4294967296)

def md5Pad (msg : List Nat) : List Nat :=
  let len := msg.length
  let z := (119 - len % 64) % 64
  msg ++ [0x80] ++ List.replicate z 0 ++
    (List.range 8).map (fun i => ((8 * len) >>> (8 * i)) % 256)

def wordsLE (ch : List Nat) : List Nat :=
  (chunksOf 4 ch).map (fun b =>
    b.getD 0 0 + 256 * b.getD 1 0 + 65536 * b.getD 2 0 + 16777216 * b.getD 3 0)

def toBytesLE4 (x : Nat) : List Nat :=
  [x % 256, (x / 256) % 256, (x / 65536) % 256, (x / 16777216) % 256]

def md5Digest (msg : List Nat) : List Nat :=
  let chunks := chunksOf 64 (md5Pad msg)
  let st := chunks.foldl (fun st ch => md5Chunk st (wordsLE ch))
    (0x67452301, 0xefcdab89, 0x98badcfe, 0x10325476)
  toBytesLE4 st.1 ++ toBytesLE4 st.2.1 ++ toBytesLE4 st.2.2.1 ++ toBytesLE4 st.2.2.2

/-- `int(md5(key).hexdigest(), 16)`. -/
def md5Int (msg : List Nat) : Nat :=
  (md5Digest msg).foldl (fun acc b => acc * 256 + b) 0

def utf8Char (c : Char) : List Nat :=
  let n := c.toNat
  if n < 0x80 then [n]
  else if n < 0x800 then [0xc0 + n / 0x40, 0x80 + n % 0x40]
  else if n < 0x10000 then
    [0xe0 + n / 0x1000, 0x80 + (n / 0x40) % 0x40, 0x80 + n % 0x40]
  else
    [0xf0 + n / 0x40000, 0x80 + (n / 0x1000) % 0x40, 0x80 + (n / 0x40) % 0x40,
     0x80 + n % 0x40]

/-- `str.encode("utf-8")`. -/
def utf8Bytes (s : String) : List Nat :=
  s.data.foldr (fun c acc => utf8Char c ++ acc) []

/-! ## generator.py: `_choose_focus_style` -/

def strTake (s : String) (n : Nat) : String :=
  String.mk (s.data.take n)

def joinSep (sep : String) : List String → String
  | [] => ""
  | [x] => x
  | x :: rest => x ++ sep ++ joinSep sep rest

def leadVariants : List String :=
  ["v1_numbers_first", "v2_time_first", "v3_actor_first", "v4_doc_first",
   "v5_scope_first", "v6_threshold_first", "v7_change_first",
   "v8_process_first", "v9_quote_first", "v10_plain"]

def anySub (t : String) (pats : List String) : Bool :=
  pats.any (fun p => strContains t p)

/-- `re.search(r"\d", text)` (any unicode decimal digit in our classes). -/
def hasNumSignal (t : String) : Bool :=
  t.data.any isPyDigit

/-- The time-marker regex is written with doubled backslashes inside a raw
string, so the `\\d{4}`-style alternatives match a literal backslash
followed by literal `d`s; only the five plain Chinese markers can fire on
real text, but the backslash alternatives are kept faithfully. -/
def hasTimeSignal (t : String) : Bool :=
  anySub t ["即日起", "日起", "截至", "截止", "目标",
    "到\\dddd年", "\\dddd年", "\\d月", "\\dd月", "\\d日", "\\dd日"]

def hasChangeSignal (t : String) : Bool :=
  anySub t ["新增", "调整", "扩大", "提高", "下调", "上调", "优化", "完善",
    "修订", "更新", "取消", "暂停"]

def hasProcessSignal (t : String) : Bool :=
  anySub t ["申报", "申请", "审核", "发放", "补贴", "补助", "办理", "材料",
    "渠道", "流程", "公示", "兑付"]

def hasQSignal (t : String) : Bool :=
  anySub t ["如何", "怎么", "什么条件", "怎么领", "是否", "能否", "哪里办",
    "需要什么"]

/-- focus_type and the ranked style candidates from the signal combination. -/
def focusRanking (text2 : String) : String × List String :=
  let has_num := hasNumSignal text2
  let has_time := hasTimeSignal text2
  let has_change := hasChangeSignal text2
  let has_process := hasProcessSignal text2
  let has_q := hasQSignal text2
  if has_q && has_process then
    ("qna_heavy", ["qna_gaps", "action_chain", "timeline", "data_snapshot", "what_changed"])
  else if has_time && has_process then
    ("timeline_heavy", ["timeline", "action_chain", "data_snapshot", "what_changed", "qna_gaps"])
  else if has_change then
    ("change_heavy", ["what_changed", "data_snapshot", "timeline", "action_chain", "qna_gaps"])
  else if has_process then
    ("process_heavy", ["action_chain", "timeline", "data_snapshot", "qna_gaps", "what_changed"])
  else if has_num then
    ("data_heavy", ["data_snapshot", "timeline", "what_changed", "action_chain", "qna_gaps"])
  else
    ("general", ["data_snapshot", "action_chain", "timeline", "what_changed", "qna_gaps"])

/-- `h = int(md5(f"{date}|{style}".encode()).hexdigest(), 16); idx = h % 10`. -/
def focusStyleIdx (dateIso fs : String) : Nat :=
  md5Int (utf8Bytes (dateIso ++ "|" ++ fs)) % 10

/-- `_choose_focus_style`: `(focus_type, focus_style, lead_variant)`. -/
def chooseFocusStyle (dateIso : String) (per_article : List PerArticleSummary)
    (recent_focus_styles recent_lead_variants : List String) :
    String × String × String :=
  let text := pyStrip (joinSep " " (per_article.map (fun it => it.summary)))
  let text2 := strTake text 8000
  let fr := focusRanking text2
  let avoid := recent_focus_styles.take 2
  let focus_style := ((fr.2.find? (fun s => s ∉ avoid)).getD (fr.2.headD ""))
  let idx := focusStyleIdx dateIso focus_style
  let lv := leadVariants.getD idx ""
  let lead_variant :=
    if recent_lead_variants ≠ [] ∧ lv = recent_lead_variants.headD "" then
      leadVariants.getD ((idx + 1) % 10) ""
    else lv
  (fr.1, focus_style, lead_variant)

/-! ## generator.py: `_extract_today_keywords` -/

/-- Titles of the first two cited articles (skipping unknown ids and empty
titles), as collected by the snippet loop. -/
def snippetsForSids (source_articles_all : List (Int × Article))
    (sids : List Int) : List String :=
  (sids.take 2).filterMap (fun sid =>
    match lookupLast source_articles_all sid with
    | none => none
    | some a => if pyStrip a.title = "" then none else some (pyStrip a.title))

/-- `str(x).isdigit()` on an `int` is true exactly for the nonnegative ones. -/
def digitIds (sids : List Int) : List Int :=
  sids.filter (fun x => 0 ≤ x)

def mkTodayKeyword (source_articles_all : List (Int × Article))
    (h : Hotspot) : KwEntry :=
  { word := pyStrip h.event
    weight := h.hotness
    hotness := h.hotness
    citations := ((digitIds h.source_ids).length : Int)
    source_ids := (digitIds h.source_ids).take 6
    snippets := (snippetsForSids source_articles_all (digitIds h.source_ids)).take 4 }

def extractTodayKeywordsLoop (source_articles_all : List (Int × Article)) :
    List Hotspot → List KwEntry
  | [] => []
  | h :: rest =>
    if pyStrip h.event = "" then extractTodayKeywordsLoop source_articles_all rest
    else mkTodayKeyword source_articles_all h
      :: extractTodayKeywordsLoop source_articles_all rest

def extractTodayKeywords (recent_hotspots : List Hotspot)
    (source_articles_all : List (Int × Article)) : List KwEntry :=
  if recent_hotspots.isEmpty then []
  else extractTodayKeywordsLoop source_articles_all (recent_hotspots.take 3)

/-! ## generator.py: `_normalize_sources_and_citations`

The traversal order of `consume` is: header.lede_citations, why_citations,
big_picture_citations, by_the_numbers[].citations, keywords[].source_ids,
recent_hotwords[].source_ids, recent_hotspots[].source_ids. -/

/-- The citation arrays of a document in the fixed traversal order. -/
def citationArrays (d : Doc) : List (List Int) :=
  d.header.lede_citations :: d.why_citations :: d.big_picture_citations ::
    (d.by_the_numbers.map (fun r => r.citations) ++
      (d.keywords.map (fun k => k.source_ids) ++
        (d.recent_hotwords.map (fun k => k.source_ids) ++
          d.recent_hotspots.map (fun k => k.source_ids))))

/-- `used_old`: first occurrences of referenced ids over the traversal. -/
def collectUsed (d : Doc) : List Int :=
  let u := addUnseen [] d.header.lede_citations
  let u := addUnseen u d.why_citations
  let u := addUnseen u d.big_picture_citations
  let u := d.by_the_numbers.foldl (fun acc r => addUnseen acc r.citations) u
  let u := d.keywords.foldl (fun acc k => addUnseen acc k.source_ids) u
  let u := d.recent_hotwords.foldl (fun acc k => addUnseen acc k.source_ids) u
  d.recent_hotspots.foldl (fun acc k => addUnseen acc k.source_ids) u

/-- `id_to_source`: dict built by assignment over the pool (last binding
wins); no positivity filter here. -/
def poolLookup (pool : List SourceEntry) (n : Int) : Option SourceEntry :=
  lookupLast (pool.map (fun s => (s.id, s))) n

/-- The mapping/new-sources loop: walk `used_old`, skip ids without a pool
entry, give the rest consecutive new ids starting at `next`. -/
def buildMappingAux (pool : List SourceEntry) (next : Int) :
    List Int → List (Int × Int) × List SourceEntry
  | [] => ([], [])
  | old :: rest =>
    match poolLookup pool old with
    | none => buildMappingAux pool next rest
    | some src =>
      let tl := buildMappingAux pool (next + 1) rest
      ((old, next) :: tl.1,
        { id := next, account := src.account, title := src.title,
          url := src.url, date := src.date } :: tl.2)

/-- `remap_list`: map through the old→new mapping, dropping unmapped ids and
repeated new ids (first occurrence wins). -/
def remapListAux (mapping : List (Int × Int)) (out : List Int) :
    List Int → List Int
  | [] => out
  | v :: vs =>
    match lookupFirst mapping v with
    | none => remapListAux mapping out vs
    | some nid =>
      if nid ∈ out then remapListAux mapping out vs
      else remapListAux mapping (out ++ [nid]) vs

def remapList (mapping : List (Int × Int)) (lst : List Int) : List Int :=
  remapListAux mapping [] lst

/-- `_normalize_sources_and_citations(obj, sources_for_prompt)`. -/
def normalizeSourcesAndCitations (obj : Doc)
    (sources_for_prompt : List SourceEntry) : Doc :=
  let used := collectUsed obj
  let mp := buildMappingAux sources_for_prompt 1 used
  let mapping := mp.1
  { obj with
    header := { obj.header with
      lede_citations := remapList mapping obj.header.lede_citations }
    why_citations := remapList mapping obj.why_citations
    big_picture_citations := remapList mapping obj.big_picture_citations
    by_the_numbers := obj.by_the_numbers.map
      (fun r => { r with citations := remapList mapping r.citations })
    keywords := obj.keywords.map
      (fun k => { k with source_ids := remapList mapping k.source_ids })
    recent_hotwords := obj.recent_hotwords.map
      (fun k => { k with source_ids := remapList mapping k.source_ids })
    recent_hotspots := obj.recent_hotspots.map
      (fun k => { k with source_ids := remapList mapping k.source_ids })
    sources := mp.2 }

/-- `[start, start+1, ..., start+len-1]` as integers. -/
def intRange (start : Int) (len : Nat) : List Int :=
  (List.range len).map (fun (k : Nat) => start + (k : Int))

/-- Hotspot fixture for the keyword-section witness. -/
def sampleHotspot : Hotspot :=
  { event := "育儿补贴申领", hotness := 56, source_ids := [1, 2]
    coverage_docs := 2, coverage_accounts := 2, last_seen := ""
    why_hot := "", category := "welfare" }

/-! ## nlp.py: `extract_key_snippets`

`clean_text` is parametrized (its boilerplate kill patterns are injected
from the environment); everything after it is embedded from the source. -/

def pyRstripL (cs : List Char) : List Char :=
  (cs.reverse.dropWhile isPySpace).reverse

/-- `re.split(r"[。！？；;\n]", t)` separator class. -/
def isSentSep (c : Char) : Bool :=
  c = '。' || c = '！' || c = '？' || c = '；' || c = ';' || c = '\n'

/-- `re.split` on a character class (keeps empty parts). -/
def splitOn (p : Char → Bool) : List Char → List (List Char)
  | [] => [[]]
  | c :: rest =>
    if p c then [] :: splitOn p rest
    else
      match splitOn p rest with
      | [] => [[c]]
      | g :: gs => (c :: g) :: gs

def snippetKws : List String :=
  ["财政", "资金", "补贴", "补助", "专项", "债", "税", "预算", "采购",
   "招标", "中标", "拨付", "下达", "绩效"]

def extractKeySnippetsLoop (maxSn : Nat) :
    List (List Char) → List String → List String
  | [], out => out
  | p :: rest, out =>
    let s := pyStripL p
    if s.isEmpty then extractKeySnippetsLoop maxSn rest out
    else if s.length < 12 then extractKeySnippetsLoop maxSn rest out
    else if !(s.any isPyDigit || snippetKws.any (fun k => hasSub s k.data)) then
      extractKeySnippetsLoop maxSn rest out
    else
      let s2 := if 140 < s.length then pyRstripL (s.take 140) ++ ('…' :: []) else s
      let str := String.mk s2
      if str ∈ out then extractKeySnippetsLoop maxSn rest out
      else
        let out2 := out ++ [str]
        if maxSn ≤ out2.length then out2
        else extractKeySnippetsLoop maxSn rest out2

/-- `nlp.extract_key_snippets(text, max_snippets)`. -/
def extract_key_snippets (cleanText : String → String) (text : String)
    (max_snippets : Nat) : List String :=
  let t := cleanText text
  if t = "" then []
  else extractKeySnippetsLoop max_snippets (splitOn isSentSep t.data) []

/-! ## hotspots.py: one-liner cache -/

structure Tags where
  finance : Int
  minsheng : Int
  tech : Int
  deriving Repr, DecidableEq, Inhabited

/-- One parsed item of the batched one-liner LLM response (typed form of
the lenient dict probing: missing `one_liner` is `""`, missing tag is `0`,
`keep` is `none` unless the model emitted a JSON boolean). -/
structure OlRawItem where
  article_id : Int
  one_liner : String
  tags : Tags
  keep : Option Bool
  deriving Repr, DecidableEq, Inhabited

/-- Persisted `ArticleOneLiner` row. -/
structure OneLinerRow where
  article_id : Int
  one_liner : String
  tags : Tags
  keep : Bool
  model : String
  prompt_version : String
  deriving Repr, DecidableEq, Inhabited

structure OneLinerResult where
  article_id : Int
  one_liner : String
  tags : Tags
  keep : Bool
  deriving Repr, DecidableEq, Inhabited

def trailPuncts : List Char :=
  ['。', '！', '？', '；', ';', '：', ':', '，', ',']

/-- `re.sub(r"[。！？；;：:，,]+$", "", t)`. -/
def stripTrailingPunctL (cs : List Char) : List Char :=
  (cs.reverse.dropWhile (fun c => c ∈ trailPuncts)).reverse

/-- `hotspots._normalize_one_liner`. -/
def _normalize_one_liner (s : String) : String :=
  let t1 := pyStripL s.data
  let t2 := t1.filter (fun c => !isPySpace c)
  let t3 := pyStripL (stripTrailingPunctL t2)
  let t4 := if 20 < t3.length then pyStripL (t3.take 20) else t3
  String.mk t4

/-- `hotspots._default_keep` with the env threshold as a parameter
(default 2), clamped to `[1, 6]` as in the source. -/
def _default_keep (tag_sum_th : Int) (tags : Tags) : Bool :=
  let th := max 1 (min 6 tag_sum_th)
  th ≤ tags.finance + tags.minsheng + tags.tech

def clampTag (x : Int) : Int := max 0 (min 3 x)

/-- `hotspots._clip_for_llm`. -/
def clipForLLM (cleanText : String → String) (a : Article) : String :=
  let title := pyStrip a.title
  let body2 := cleanText (pyStrip a.content)
  let snips := extract_key_snippets cleanText body2 6
  let snippetText := joinSep "\n" (snips.filter (fun s => pyStrip s ≠ ""))
  let payload := if snippetText = "" then strTake body2 1600 else snippetText
  strTake (pyStrip (title ++ "\n" ++ payload)) 1600

/-- The per-article row built in the store loop: normalized one-liner with
title fallback, clamped tags, `keep` defaulted from the tag sum. -/
def mkOneLinerRow (modelName ver : String) (tag_sum_th : Int) (a : Article)
    (it : Option OlRawItem) : OneLinerRow :=
  let one0 := _normalize_one_liner
    (match it with | some i => i.one_liner | none => "")
  let tags2 : Tags :=
    match it with
    | some i =>
      { finance := clampTag i.tags.finance, minsheng := clampTag i.tags.minsheng,
        tech := clampTag i.tags.tech }
    | none => { finance := 0, minsheng := 0, tech := 0 }
  let keep2 :=
    match it with
    | some i =>
      match i.keep with
      | some b => b
      | none => _default_keep tag_sum_th tags2
    | none => _default_keep tag_sum_th tags2
  let one := if one0 = "" then _normalize_one_liner (strTake (pyStrip a.title) 20)
    else one0
  { article_id := a.id, one_liner := one, tags := tags2, keep := keep2,
    model := strTake modelName 100, prompt_version := ver }

/-- `items` of one batch call: positive-id articles with their clips. -/
def batchItems (cleanText : String → String) (batch : List Article) :
    List (Int × String) :=
  batch.filterMap (fun a =>
    if a.id ≤ 0 then none else some (a.id, clipForLLM cleanText a))

/-- `res_map` lookup: response items keyed by positive `article_id`, later
entries overwriting earlier ones. -/
def olResLookup (resp : List OlRawItem) (aid : Int) : Option OlRawItem :=
  lookupLast (resp.filterMap (fun it =>
    if 0 < it.article_id then some (it.article_id, it) else none)) aid

/-- The batch loop: one oracle call per non-empty `items` (the Python
returns `{}` without calling the client when `items` is empty); rows are
appended per processed article.  Returns the grown DB and the LLM call
count. -/
def runOlBatches (cleanText : String → String)
    (oracle : List (Int × String) → List OlRawItem)
    (modelName ver : String) (th : Int) :
    List (List Article) → List OneLinerRow → List OneLinerRow × Nat
  | [], db => (db, 0)
  | b :: bs, db =>
    let items := batchItems cleanText b
    let resMap := if items.isEmpty then [] else oracle items
    let db2 := db ++ b.filterMap (fun a =>
      if a.id ≤ 0 then none
      else some (mkOneLinerRow modelName ver th a (olResLookup resMap a.id)))
    let tl := runOlBatches cleanText oracle modelName ver th bs db2
    (tl.1, (if items.isEmpty then 0 else 1) + tl.2)

def articleIdsOf (articles : List Article) : List Int :=
  (articles.filterMap (fun a => if a.id ≠ 0 then some a.id else none)).filter
    (fun x => 0 < x)

def cachedIdsOf (db : List OneLinerRow) (ver : String)
    (article_ids : List Int) : List Int :=
  (db.filter (fun r =>
    r.article_id ∈ article_ids ∧ r.prompt_version = ver ∧ r.article_id ≠ 0)).map
      (fun r => r.article_id)

def neededArticles (db : List OneLinerRow) (ver : String)
    (articles : List Article) : List Article :=
  articles.filter (fun a => a.id ∉ cachedIdsOf db ver (articleIdsOf articles))

/-- `hotspots.get_or_compute_one_liners`, with `clean_text`, the chat client
and the env knobs as parameters.  Returns the results, the final DB state
and the number of one-liner LLM calls made. -/
def get_or_compute_one_liners (cleanText : String → String)
    (oracle : List (Int × String) → List OlRawItem)
    (modelName ver : String) (batch_raw th : Int)
    (db : List OneLinerRow) (articles : List Article) :
    List OneLinerResult × List OneLinerRow × Nat :=
  if articles.isEmpty then ([], db, 0)
  else
    let article_ids := articleIdsOf articles
    if article_ids.isEmpty then ([], db, 0)
    else
      let need := neededArticles db ver articles
      let batch_size := (max 1 (min 12 batch_raw)).toNat
      let res := runOlBatches cleanText oracle modelName ver th
        (chunksOf batch_size need) db
      let rows2 := res.1.filter (fun r =>
        r.article_id ∈ article_ids ∧ r.prompt_version = ver)
      (rows2.map (fun r =>
        { article_id := r.article_id, one_liner := pyStrip r.one_liner,
          tags := r.tags, keep := r.keep }),
       res.1, res.2)

/-! ## generator.py: `_summarize_per_article`

The chat call, the `extract_first_json` probing and the `"summary"` key
lookup collapse into the oracle `llm sid title clip`, whose value is the
raw summary string — `""` both for an API failure and for a missing or
empty field; the code then strips it.  `cfg.per_article_chars` and
`cfg.max_snippets_per_article` are the integer parameters `pc` and `ms`. -/

def perArticleEntry (cleanText : String → String)
    (llm : Int → String → String → String) (pc ms : Nat)
    (source_articles : List (Int × Article)) (s : SourceEntry) :
    Option PerArticleSummary :=
  if s.id = 0 then none
  else
    match lookupLast source_articles s.id with
    | none => none
    | some a =>
      let title := pyStrip a.title
      let body := pyStrip a.content
      let clip := strTake (cleanText body) pc
      let summary0 := pyStrip (llm s.id title clip)
      let summary1 :=
        if summary0 = "" then
          pyStrip (match extract_key_snippets cleanText clip ms with
            | [] => ""
            | sn :: _ => sn)
        else summary0
      let summary := if summary1 = "" then strTake title 80 else summary1
      some { source_id := s.id, title := strTake title 120,
             summary := strTake summary 120 }

/-- `generator._summarize_per_article`: one entry per source whose id is
truthy and has a matching article. -/
def summarizePerArticle (cleanText : String → String)
    (llm : Int → String → String → String) (pc ms : Nat)
    (sources : List SourceEntry)
    (source_articles : List (Int × Article)) : List PerArticleSummary :=
  sources.filterMap (perArticleEntry cleanText llm pc ms source_articles)

/-! ## generator.py: `_extract_recent_hotspots` and
`hotspots.cluster_recent_hotspots_llm`

`sources_for_prompt` entries are the same dicts as in the normalizer, so
`SourceEntry` is reused; `source_articles` is the sid→Article dict as an
association list in insertion order.  `end_utc` and `published_at` are
naive-UTC seconds; `_date_str_for_article` renders a local-timezone date
from the `REPORT_TZ`/`TZ` environment, so it enters as the parameter
`dateStr` (the claim never touches `last_seen`).  The env knobs
`RECENT_HOTSPOTS_TOP_K`, `RECENT_HOTSPOTS_TAG_SUM_THRESHOLD` and
`RECENT_HOTSPOTS_CLUSTER_MAX_ITEMS` enter as the raw integer parameters
that the code then clamps; `window_days` is only clamped and never read
again inside this function, so it is dropped. -/

/-- One item of the `cluster_items` list sent to the clustering LLM. -/
structure ClusterItem where
  source_id : Int
  one_liner : String
  tags : Tags
  account : String
  title : String
  deriving Repr, DecidableEq, Inhabited

/-- One raw event dict of the clustering LLM response.  `source_ids = none`
models a `source_ids` value that is not a JSON list; a member `none` models
a value `int()` rejects.  A response entry that is not a dict is skipped by
the source exactly like an entry whose cleaned event name is too short, so
it needs no separate constructor. -/
structure EvRaw where
  event : String
  source_ids : Option (List (Option Int))
  why_hot : String
  category : String
  deriving Repr, DecidableEq, Inhabited

/-- A postprocessed event returned by `cluster_recent_hotspots_llm`. -/
structure ClusterEvent where
  event : String
  source_ids : List Int
  why_hot : String
  category : String
  deriving Repr, DecidableEq, Inhabited

/-- Event-name cleanup: `strip`, drop all `\s`, strip trailing
`[。！？；;：:，,]+`, `strip` again. -/
def evName (s : String) : String :=
  let n1 := (pyStripL s.data).filter (fun c => !isPySpace c)
  String.mk (pyStripL (stripTrailingPunctL n1))

/-- `why_hot` cleanup: `strip`, drop all `\s`, clip to 12 chars. -/
def evWhy (s : String) : String :=
  let w := (pyStripL s.data).filter (fun c => !isPySpace c)
  if 12 < w.length then String.mk (w.take 12) else String.mk w

/-- `valid_ids`: the `source_id`s of the input items; `str(sid).isdigit()`
holds for an int exactly when it is non-negative, and `sid or ""` turns `0`
into the non-digit `""`, so exactly the positive ids survive. -/
def clusterValidIds (items : List ClusterItem) : List Int :=
  items.filterMap (fun it =>
    if 0 < it.source_id then some it.source_id else none)

/-- The `sids2` loop: convert each member to int (skip failures), keep it
when it is a valid id not yet collected. -/
def sids2Aux (valid acc : List Int) : List (Option Int) → List Int
  | [] => acc.reverse
  | none :: xs => sids2Aux valid acc xs
  | some n :: xs =>
    if n ∈ valid ∧ n ∉ acc then sids2Aux valid (n :: acc) xs
    else sids2Aux valid acc xs

/-- The event kept by one loop step: cleaned name, valid deduplicated
source ids clipped to six, cleaned `why_hot`, defaulted category. -/
def evOut (valid : List Int) (name : String) (ev : EvRaw)
    (sids : List (Option Int)) : ClusterEvent :=
  { event := name, source_ids := (sids2Aux valid [] sids).take 6,
    why_hot := evWhy ev.why_hot,
    category := if pyStrip ev.category = "" then "other"
      else pyStrip ev.category }

/-- The event-postprocessing loop of `cluster_recent_hotspots_llm`: clean
and deduplicate names, restrict `source_ids` to known ids, require at least
two of them, stop once `target_n` events are kept. -/
def clusterLoop (valid : List Int) (target_n : Nat) :
    List EvRaw → List String → List ClusterEvent → List ClusterEvent
  | [], _, out => out.reverse
  | ev :: evs, seen, out =>
    let name0 := evName ev.event
    if name0.data.length < 2 then clusterLoop valid target_n evs seen out
    else
      let name := if 12 < name0.data.length then pyStrip (strTake name0 12)
        else name0
      if name ∈ seen then clusterLoop valid target_n evs seen out
      else
        match ev.source_ids with
        | none => clusterLoop valid target_n evs seen out
        | some sids =>
          if (sids2Aux valid [] sids).length < 2 then
            clusterLoop valid target_n evs seen out
          else
            let out2 : List ClusterEvent := evOut valid name ev sids :: out
            if target_n ≤ out2.length then out2.reverse
            else clusterLoop valid target_n evs (name :: seen) out2

/-- `hotspots.cluster_recent_hotspots_llm` with the chat call as the oracle
parameter; the second component counts LLM calls (the function returns `[]`
before calling the client when `items` is empty). -/
def cluster_recent_hotspots_llm (oracle : List ClusterItem → List EvRaw)
    (items : List ClusterItem) (target_raw : Int) :
    List ClusterEvent × Nat :=
  if items.isEmpty then ([], 0)
  else
    let t0 : Int := if target_raw = 0 then 8 else target_raw
    let target_n := (max 3 (min 8 t0)).toNat
    (clusterLoop (clusterValidIds items) target_n (oracle items) [] [], 1)

/-- The gate of the `sources_for_prompt` loop: positive id, article present
in `source_articles`, truthy `article.id`. -/
def hsGate (source_articles : List (Int × Article)) (s : SourceEntry) :
    Option Article :=
  if s.id ≤ 0 then none
  else
    match lookupLast source_articles s.id with
    | none => none
    | some a => if a.id = 0 then none else some a

/-- The `articles` list accumulated by that loop. -/
def hsArticles (source_articles : List (Int × Article))
    (srcs : List SourceEntry) : List Article :=
  srcs.filterMap (hsGate source_articles)

/-- The `sid_meta` dict accumulated by that loop (account, title). -/
def hsSidMeta (source_articles : List (Int × Article))
    (srcs : List SourceEntry) : List (Int × (String × String)) :=
  srcs.filterMap (fun s =>
    match hsGate source_articles s with
    | none => none
    | some _ => some (s.id, (pyStrip s.account, pyStrip s.title)))

/-- `sid_meta.get(sid, {}).get("account") or ""`. -/
def accName (sidMeta : List (Int × (String × String))) (sid : Int) : String :=
  match lookupLast sidMeta sid with
  | some m => m.1
  | none => ""

/-- `sid_meta.get(sid, {}).get("title") or ""`. -/
def titleName (sidMeta : List (Int × (String × String))) (sid : Int) :
    String :=
  match lookupLast sidMeta sid with
  | some m => m.2
  | none => ""

/-- One step of the `cluster_items` loop over `source_articles.items()`:
positive article id, non-empty cached one-liner, tag sum at or above the
clamped threshold. -/
def clusterItemOf (th : Int) (aid_to_ol : List (Int × OneLinerResult))
    (sidMeta : List (Int × (String × String))) (p : Int × Article) :
    Option ClusterItem :=
  if p.2.id ≤ 0 then none
  else
    match lookupLast aid_to_ol p.2.id with
    | none => none
    | some ol =>
      if pyStrip ol.one_liner = "" then none
      else if ol.tags.finance + ol.tags.minsheng + ol.tags.tech < th then none
      else some { source_id := p.1, one_liner := pyStrip ol.one_liner,
                  tags := ol.tags, account := accName sidMeta p.1,
                  title := titleName sidMeta p.1 }

def clusterItems (th : Int) (aid_to_ol : List (Int × OneLinerResult))
    (sidMeta : List (Int × (String × String)))
    (source_articles : List (Int × Article)) : List ClusterItem :=
  source_articles.filterMap (clusterItemOf th aid_to_ol sidMeta)

/-- `cluster_items` as computed by `_extract_recent_hotspots`: one-liners
through the persistent cache, then the tag-sum gate with the threshold
clamped to `[1, 6]`. -/
def hsClusterItems (cleanText : String → String)
    (olOracle : List (Int × String) → List OlRawItem)
    (modelName ver : String) (batch_raw ol_th tag_raw : Int)
    (db : List OneLinerRow) (srcs : List SourceEntry)
    (source_articles : List (Int × Article)) : List ClusterItem :=
  let one_liners := (get_or_compute_one_liners cleanText olOracle modelName
    ver batch_raw ol_th db (hsArticles source_articles srcs)).1
  clusterItems (max 1 (min 6 tag_raw))
    (one_liners.map (fun x => (x.article_id, x)))
    (hsSidMeta source_articles srcs) source_articles

def policyMarks : List String :=
  ["补贴", "补助", "津贴", "退税", "减免", "专项债", "消费券", "以旧换新",
   "报销", "医保", "社保", "托育", "研发", "专利", "高新"]

/-- `_score_item`, scaled by 10 into `Int`.  The Python score is
`tag_sum * 10.0 + rec + mark` with `rec ∈ {3.0, 2.0, 1.0, 0.2, 0.0}` and
`mark ∈ {1.2, 0.0}`; distinct real values of `rec + mark` differ by at
least `0.2` while the float rounding error is below `1e-12`, so comparisons
of the floats order exactly like comparisons of these integers. -/
def scoreItem (source_articles : List (Int × Article)) (end_utc : Int)
    (it : ClusterItem) : Int :=
  let tag_sum := it.tags.finance + it.tags.minsheng + it.tags.tech
  let rec10 : Int :=
    match lookupLast source_articles it.source_id with
    | none => 0
    | some a =>
      match a.published_at with
      | none => 0
      | some dt =>
        let days := Int.fdiv (end_utc - dt) 86400
        if days ≤ 0 then 30 else if days = 1 then 20
        else if days = 2 then 10 else 2
  let mark10 : Int :=
    if policyMarks.any (fun m => strContains it.title m) then 12 else 0
  tag_sum * 100 + rec10 + mark10

/-- `len(set(...))` of the distinct positive sids (`docs` in `_hotness`). -/
def hsDocs (sids : List Int) : Int :=
  ((sids.filter (fun x => 0 < x)).dedup.length : Int)

/-- `accs` as used inside `_hotness`: distinct non-empty accounts of the
**positive** sids. -/
def hsAccs (sidMeta : List (Int × (String × String))) (sids : List Int) :
    Int :=
  ((((sids.filter (fun x => 0 < x)).map (accName sidMeta)).filter
    (fun s => s ≠ "")).dedup.length : Int)

/-- The local hotness score of `_hotness`:
`min(100, 20 + docs * 18 + accs * 10)`. -/
def hotnessScore (sidMeta : List (Int × (String × String)))
    (sids : List Int) : Int :=
  min 100 (20 + hsDocs sids * 18 + hsAccs sidMeta sids * 10)

/-- The `last_seen` part of `_hotness`: sid of the strictly latest
`published_at` among the positive sids (first one wins on ties), rendered
through `_date_str_for_article`. -/
def lastSeenOf (dateStr : Option Article → String)
    (source_articles : List (Int × Article)) (sids : List Int) : String :=
  let best := (sids.filter (fun x => 0 < x)).foldl
    (fun (b : Option (Int × Int)) sid =>
      match lookupLast source_articles sid with
      | none => b
      | some a =>
        match a.published_at with
        | none => b
        | some dt =>
          match b with
          | none => some (dt, sid)
          | some q => if q.1 < dt then some (dt, sid) else b) none
  match best with
  | none => dateStr none
  | some q => dateStr (lookupLast source_articles q.2)

/-- The `out` loop body of `_extract_recent_hotspots`: events keep at least
two (all-integer) source ids, hotness/docs/last_seen come from `_hotness`,
`coverage_accounts` is recounted over the raw sids (no positivity filter),
`source_ids` is clipped to six. -/
def hotspotOf (dateStr : Option Article → String)
    (sidMeta : List (Int × (String × String)))
    (source_articles : List (Int × Article)) (ev : ClusterEvent) :
    Option Hotspot :=
  if ev.source_ids.length < 2 then none
  else
    some { event := ev.event,
           hotness := hotnessScore sidMeta ev.source_ids,
           source_ids := ev.source_ids.take 6,
           coverage_docs := hsDocs ev.source_ids,
           coverage_accounts := (((ev.source_ids.map (accName sidMeta)).filter
             (fun s => s ≠ "")).dedup.length : Int),
           last_seen := lastSeenOf dateStr source_articles ev.source_ids,
           why_hot := ev.why_hot,
           category := if ev.category = "" then "other" else ev.category }

/-- `generator._extract_recent_hotspots`.  The second component counts
clustering LLM calls. -/
def extractRecentHotspots (cleanText : String → String)
    (olOracle : List (Int × String) → List OlRawItem)
    (clOracle : List ClusterItem → List EvRaw)
    (dateStr : Option Article → String)
    (modelName ver : String) (batch_raw ol_th : Int)
    (db : List OneLinerRow) (srcs : List SourceEntry)
    (source_articles : List (Int × Article))
    (end_utc top_k_raw tag_raw max_cl_raw : Int) : List Hotspot × Nat :=
  let top_k := max 3 (min 8 top_k_raw)
  if (hsArticles source_articles srcs).isEmpty then ([], 0)
  else
    let items0 := hsClusterItems cleanText olOracle modelName ver batch_raw
      ol_th tag_raw db srcs source_articles
    if items0.length < 3 then ([], 0)
    else
      let maxN := (max 40 (min 220 max_cl_raw)).toNat
      let items := if maxN < items0.length
        then (sortDesc (scoreItem source_articles end_utc) items0).take maxN
        else items0
      let evc := cluster_recent_hotspots_llm clOracle items top_k
      if evc.1.isEmpty then ([], evc.2)
      else
        let sidMeta := hsSidMeta source_articles srcs
        let out := evc.1.filterMap (hotspotOf dateStr sidMeta source_articles)
        ((sortDesc (fun h => h.hotness) out).take top_k.toNat, evc.2)

/-! ## Date rendering

`published_at` is naive-UTC seconds; `datetime.isoformat()` and the
Beijing-date rendering of `_date_str_for_article` are civil-calendar
arithmetic (standard days-to-civil conversion). -/

def pad2 (n : Nat) : String :=
  if n < 10 then "0" ++ toString n else toString n

def pad4 (n : Nat) : String :=
  if n < 10 then "000" ++ toString n
  else if n < 100 then "00" ++ toString n
  else if n < 1000 then "0" ++ toString n
  else toString n

/-- Days since 1970-01-01 to (year, month, day), proleptic Gregorian. -/
def civilFromDays (z0 : Int) : Int × Int × Int :=
  let z := z0 + 719468
  let era := Int.fdiv z 146097
  let doe := z - era * 146097
  let yoe := Int.fdiv
    (doe - Int.fdiv doe 1460 + Int.fdiv doe 36524 - Int.fdiv doe 146096) 365
  let y := yoe + era * 400
  let doy := doe - (365 * yoe + Int.fdiv yoe 4 - Int.fdiv yoe 100)
  let mp := Int.fdiv (5 * doy + 2) 153
  let d := doy - Int.fdiv (153 * mp + 2) 5 + 1
  let m := mp + (if mp < 10 then 3 else -9)
  (y + (if m ≤ 2 then 1 else 0), m, d)

/-- `datetime.isoformat()` of a naive datetime with zero microseconds. -/
def isoformatNaive (t : Int) : String :=
  let days := Int.fdiv t 86400
  let secs := (t - days * 86400).toNat
  let c := civilFromDays days
  pad4 c.1.toNat ++ "-" ++ pad2 c.2.1.toNat ++ "-" ++ pad2 c.2.2.toNat ++
    "T" ++ pad2 (secs / 3600) ++ ":" ++ pad2 ((secs / 60) % 60) ++ ":" ++
    pad2 (secs % 60)

/-- `generator._date_str_for_article`: the UTC+8 civil date of
`published_at`, `""` for a missing article or timestamp. -/
def dateStrForArticle : Option Article → String
  | none => ""
  | some a =>
    match a.published_at with
    | none => ""
    | some t =>
      let c := civilFromDays (Int.fdiv (t + 28800) 86400)
      pad4 c.1.toNat ++ "-" ++ pad2 c.2.1.toNat ++ "-" ++ pad2 c.2.2.toNat

/-! ## nlp.py: `strip_focus_markers` -/

def dropSpaces (cs : List Char) : List Char :=
  cs.dropWhile isPySpace

/-- Match `【\s*(?:为何重要|为什么重要|大局)\s*】` at the head, returning the
rest after the marker. -/
def matchMarkerAt (cs : List Char) : Option (List Char) :=
  match cs with
  | '【' :: rest =>
    let r1 := dropSpaces rest
    let kw := if headMatches "为何重要".data r1 then some (r1.drop 4)
      else if headMatches "为什么重要".data r1 then some (r1.drop 5)
      else if headMatches "大局".data r1 then some (r1.drop 2)
      else none
    match kw with
    | none => none
    | some r2 =>
      match dropSpaces r2 with
      | '】' :: r3 => some r3
      | _ => none
  | _ => none

/-- Global removal of the bracket markers (fuel ≥ input length). -/
def subMarkersAux : Nat → List Char → List Char
  | 0, cs => cs
  | _ + 1, [] => []
  | fuel + 1, c :: cs =>
    match matchMarkerAt (c :: cs) with
    | some rest => subMarkersAux fuel rest
    | none => c :: subMarkersAux fuel cs

/-- Match `^\s*(?:kw…)\s*[:：]\s*` and return the rest, `none` otherwise. -/
def matchLeadAux (kws : List (List Char)) (cs : List Char) :
    Option (List Char) :=
  let r1 := dropSpaces cs
  match kws.find? (fun k => headMatches k r1) with
  | none => none
  | some k =>
    match dropSpaces (r1.drop k.length) with
    | c :: r4 => if c = ':' ∨ c = '：' then some (dropSpaces r4) else none
    | [] => none

def stripLead (kws : List (List Char)) (cs : List Char) : List Char :=
  match matchLeadAux kws cs with
  | some r => r
  | none => cs

/-- `re.sub(r"\s+", " ", t)` (fuel ≥ input length). -/
def collapseSpacesAux : Nat → List Char → List Char
  | 0, cs => cs
  | _ + 1, [] => []
  | fuel + 1, c :: cs =>
    if isPySpace c then ' ' :: collapseSpacesAux fuel (cs.dropWhile isPySpace)
    else c :: collapseSpacesAux fuel cs

/-- `nlp.strip_focus_markers`. -/
def strip_focus_markers (text : String) : String :=
  if text = "" then ""
  else
    let t0 := pyStripL text.data
    let t1 := subMarkersAux t0.length t0
    let t2 := stripLead ["为何重要".data, "为什么重要".data] t1
    let t3 := stripLead ["大局".data] t2
    String.mk (pyStripL (collapseSpacesAux t3.length t3))

/-! ## guardrails.py: `sanitize_sensitive`

The phrase list comes from `ZPULSE_SENSITIVE_PHRASES` (or the built-in
default), so it enters as a parameter. -/

def find_sensitive_hits (text : String) (phrases : List String) :
    List String :=
  if text = "" then []
  else phrases.filter (fun p => p ≠ "" && strContains text p)

def collect_all_text_fields (o : Doc) : String :=
  joinSep "\n"
    (([o.header.title, o.header.lede].filter (fun v => v ≠ "") ++
      ([o.why_it_matters, o.big_picture].filter (fun v => v ≠ "") ++
        (listFlat (o.by_the_numbers.map (fun r =>
          [r.indicator, r.value, r.note].filter (fun v => v ≠ ""))) ++
          o.hotwords.filter (fun w => w ≠ "")))))

/-- Replace every hit, in phrase order, with the mask text. -/
def maskStr (hits : List String) (s : String) : String :=
  hits.foldl (fun out h =>
    String.mk (replaceSub out.data h.data "（已脱敏）".data)) s

def sanitize_sensitive (phrases : List String) (o : Doc) :
    Doc × List String :=
  let hits := find_sensitive_hits (collect_all_text_fields o) phrases
  if hits.isEmpty then (o, [])
  else
    ({ o with
        header :=
          { o.header with
            title := maskStr hits o.header.title,
            lede := maskStr hits o.header.lede },
        why_it_matters := maskStr hits o.why_it_matters,
        big_picture := maskStr hits o.big_picture,
        by_the_numbers := o.by_the_numbers.map (fun r =>
          { r with indicator := maskStr hits r.indicator,
                   value := maskStr hits r.value,
                   note := maskStr hits r.note }),
        hotwords := o.hotwords.map (maskStr hits) }, hits)

/-! ## generator.py: `_build_material`

`int(per_article * 0.7)` is modeled as the exact `per_article * 7 / 10`
(the float product can differ from the real one by one ulp, which could in
principle shift the head clip by one character; the exact real floor is
used here). -/

def materialBlock (cleanText : String → String) (per ms : Nat) (idx : Nat)
    (a : Article) : String :=
  let pub := match a.published_at with
    | some t => isoformatNaive t
    | none => ""
  let body0 := cleanText a.content
  let body :=
    if per < body0.data.length then
      let head := String.mk (pyRstripL (body0.data.take (per * 7 / 10)))
      let snippets := extract_key_snippets cleanText body0 ms
      let snip_block := if snippets.isEmpty then ""
        else "关键句（原文摘录）：\n- " ++ joinSep "\n- " snippets
      let b1 := pyStrip
        (head ++ (if snip_block = "" then "" else "\n\n" ++ snip_block))
      String.mk (pyRstripL (b1.data.take per))
    else body0
  let nums := extract_number_spans body 12
  let nums_block := if nums.isEmpty then ""
    else "关键数字（原文摘录）：\n- " ++ joinSep "\n- " nums
  pyStrip (joinSep "\n"
    ["[" ++ toString idx ++ "] 标题: " ++ a.title,
     "公众号: " ++ (if a.account = "" then "（未知）" else a.account),
     "URL: " ++ (if a.article_url = "" then "（未知）" else a.article_url),
     "发布时间: " ++ (if pub = "" then "（未知）" else pub),
     "正文: " ++ body,
     nums_block])

/-- The material loop: ids run 1..k, the first block that would push the
total past `maxTotal` stops the whole loop.  The prompt source dicts carry
no `date` key, so that field is `""`. -/
def buildMaterialAux (cleanText : String → String) (maxTotal per ms : Nat) :
    List Article → Nat → Nat →
    List String × List SourceEntry × List (Int × Article)
  | [], _, _ => ([], [], [])
  | a :: rest, idx, total =>
    let block := materialBlock cleanText per ms idx a
    if maxTotal < total + block.data.length then ([], [], [])
    else
      let tl := buildMaterialAux cleanText maxTotal per ms rest (idx + 1)
        (total + block.data.length)
      (block :: tl.1,
       { id := (idx : Int), account := a.account, title := a.title,
         url := a.article_url, date := "" } :: tl.2.1,
       ((idx : Int), a) :: tl.2.2)

def buildMaterial (cleanText : String → String) (maxTotal per ms : Nat)
    (articles : List Article) :
    String × List SourceEntry × List (Int × Article) :=
  let r := buildMaterialAux cleanText maxTotal per ms articles 1 0
  (joinSep "\n\n---\n\n" r.1, r.2.1, r.2.2)

/-! ## generator.py: `_build_sources_index_with_finance_first` -/

/-- First loop: keep finance sources with positive ids, re-dating them from
their article. -/
def finSrcEntry (fin_arts : List (Int × Article)) (s : SourceEntry) :
    Option SourceEntry :=
  if s.id ≤ 0 then none
  else some { id := s.id, account := s.account, title := s.title,
              url := s.url,
              date := dateStrForArticle (lookupLast fin_arts s.id) }

/-- Second loop: append URL-unique remaining articles under fresh ids. -/
def sifAllAux (next_id : Int) (urls : List String) :
    List Article → List SourceEntry × List (Int × Article)
  | [] => ([], [])
  | a :: rest =>
    let url := pyStrip a.article_url
    if url = "" ∨ url ∈ urls then sifAllAux next_id urls rest
    else
      let tl := sifAllAux (next_id + 1) (url :: urls) rest
      ({ id := next_id, account := a.account, title := pyStrip a.title,
         url := url, date := dateStrForArticle (some a) } :: tl.1,
       (next_id, a) :: tl.2)

def buildSourcesIndexFinanceFirst (fin_sources : List SourceEntry)
    (fin_arts : List (Int × Article)) (all_articles : List Article) :
    List SourceEntry × List (Int × Article) :=
  let finPart := fin_sources.filterMap (finSrcEntry fin_arts)
  let finArtsPart := fin_sources.filterMap (fun s =>
    if s.id ≤ 0 then none
    else (lookupLast fin_arts s.id).map (fun a => (s.id, a)))
  let urls0 := finPart.filterMap (fun e =>
    if e.url = "" then none else some e.url)
  let max_id := finPart.foldl (fun m e => max m e.id) 0
  let rest := sifAllAux (max_id + 1) urls0 all_articles
  (finPart ++ rest.1, finArtsPart ++ rest.2)

/-! ## generator.py: retry-loop gates -/

def ZJCities : List String :=
  ["杭州", "宁波", "温州", "嘉兴", "湖州", "绍兴", "金华", "衢州", "舟山",
   "台州", "丽水"]

def localMarkers : List String :=
  ["县", "区", "镇", "乡", "街道", "开发区", "新区", "园区", "经开", "高新"]

/-- Distinct positive cited ids over lede/why/big-picture arrays. -/
def collectCitedIds (o : Doc) : List Int :=
  dedupF (((o.header.lede_citations ++ o.why_citations) ++
    o.big_picture_citations).filter (fun n => 0 < n))

/-- `id2src`: sources with truthy id, later bindings winning. -/
def id2srcOf (srcs : List SourceEntry) : List (Int × SourceEntry) :=
  srcs.filterMap (fun s => if s.id = 0 then none else some (s.id, s))

def blobOf (i2s : List (Int × SourceEntry)) (sid : Int) : String :=
  match lookupLast i2s sid with
  | some s => s.account ++ " " ++ s.title
  | none => " "

/-- `generator._is_focus_too_local_or_narrow`. -/
def isFocusTooLocalOrNarrow (o : Doc) (srcs : List SourceEntry) : Bool :=
  let title := pyStrip o.header.title
  let visual_focus := pyStrip o.visual_focus
  let allow_broad := ["全省", "浙江", "省级"].any (fun x => strContains title x)
  let has_city := ZJCities.any (fun c => strContains title c)
  let is_local := title ≠ "" && localMarkers.any (fun m => strContains title m)
  if is_local && !allow_broad then true
  else if visual_focus = "common_issue" then
    let i2s := id2srcOf srcs
    let cityCount := (ZJCities.filter (fun c =>
      (collectCitedIds o).any (fun sid =>
        strContains (blobOf i2s sid) c))).length
    if cityCount < 2 && !allow_broad then true
    else false
  else if visual_focus = "high_impact_event" then
    is_local && !(allow_broad || has_city)
  else false

/-- `generator._is_topic_semantic_duplicate`, the chat judgment as the
oracle `judge` (called on the candidate and the clipped history). -/
def isTopicSemanticDuplicate (judge : String → List String → Bool)
    (topic : String) (recent : List String) : Bool :=
  let t := pyStrip topic
  if t = "" then false
  else
    let r := (recent.map pyStrip).filter (fun x => x ≠ "")
    if r.isEmpty then false
    else if t ∈ r then true
    else judge t (r.take 10)

/-! ## prompts.py: `coerce_schema_defaults` and the parse fallback -/

/-- `coerce_schema_defaults` under the typed parse oracle: every
`setdefault` is the identity (the oracle already absorbs missing keys into
the default values, including the date-stamped default title at the fixed
target date), leaving the one unconditional assignment
`header["date"] = target_date.isoformat()`. -/
def coerceSchemaDefaults (o : Doc) (d : String) : Doc :=
  { o with header := { o.header with date := d } }

/-- The minimal wrapper object built when the draft fails to parse; fields
the dict leaves out read as their defaults downstream. -/
def fallbackDoc (d raw : String) (sources_all : List SourceEntry) : Doc :=
  { schema := "smart_brevity_v1", focus_topic := "",
    visual_focus := "common_issue",
    header := { title := "浙江财政情报日报（" ++ d ++ "）", date := d,
                lede := strTake raw 200, lede_citations := [] },
    why_it_matters := "", why_citations := [], big_picture := "",
    big_picture_citations := [], by_the_numbers := [], word_cloud := [],
    keywords := [], hotwords := [], recent_hotwords := [],
    recent_hotspots := [],
    recent_hotspots_meta := { window_days := 0, total_hotspots := 0,
                              window_end_utc := "" },
    article_summaries := [], focus_type := "", focus_style := "",
    lead_variant := "", sources := sources_all }

/-! ## generator.py: `generate`

LLM calls enter as oracles: `draft attempt last_reason` is the raw
smart-brevity response (the `extra` retry instructions are a function of
exactly those two values), `parse` is `extract_first_json` on a draft (an
arbitrary function parameter covers the concrete parser), `judge` the
topic-duplicate judgment.  A failed `_call_llm` is `""`. -/

def genLoopAux (draft : Nat → String → String) (parse : String → Option Doc)
    (dup : String → Bool) (tooLocal : Doc → Bool) :
    Nat → Nat → String → String → String
  | 0, _, _, raw => raw
  | fuel + 1, attempt, last_reason, _ =>
    let raw := draft attempt last_reason
    if raw = "" then raw
    else
      match parse raw with
      | none => raw
      | some obj_try =>
        let ft := pyStrip obj_try.focus_topic
        if ft = "" then
          genLoopAux draft parse dup tooLocal fuel (attempt + 1) last_reason raw
        else if dup ft then
          genLoopAux draft parse dup tooLocal fuel (attempt + 1) "semantic_dup" raw
        else if tooLocal obj_try then
          genLoopAux draft parse dup tooLocal fuel (attempt + 1) "too_local" raw
        else raw

/-- `generator.generate`.  The trailing shape-ensure steps
(`keywords` list check and `sources or []`) are identities in the typed
model and the final `by_the_numbers`/`word_cloud` assignments are kept;
the hotspot `try/except` collapses because the embedded body is total. -/
def generate (cleanText : String → String) (phrases : List String)
    (olOracle : List (Int × String) → List OlRawItem)
    (clOracle : List ClusterItem → List EvRaw)
    (sumLlm : Int → String → String → String)
    (draft : Nat → String → String) (parse : String → Option Doc)
    (judge : String → List String → Bool) (modelName ver : String)
    (min_hits batch_raw ol_th top_k_raw tag_raw max_cl_raw : Int)
    (max_total bm_per pa_chars ms : Nat) (db : List OneLinerRow)
    (d : String) (finance_articles all_articles : List Article)
    (end_utc window_days_raw : Int)
    (recent_focus_styles recent_lead_variants recent_focus_topics
      : List String) : Option Doc :=
  if finance_articles.isEmpty then none
  else
    let finance_candidates := prefilterArticles min_hits finance_articles
    let bm := buildMaterial cleanText max_total bm_per ms finance_candidates
    let sources_fin := bm.2.1
    let source_articles_fin := bm.2.2
    let per_article := summarizePerArticle cleanText sumLlm pa_chars ms
      sources_fin source_articles_fin
    let fsl := chooseFocusStyle d per_article recent_focus_styles
      recent_lead_variants
    let recent_topics := (recent_focus_topics.map pyStrip).filter
      (fun t => t ≠ "")
    let raw := genLoopAux draft parse
      (fun ft => isTopicSemanticDuplicate judge ft recent_topics)
      (fun o => isFocusTooLocalOrNarrow o sources_fin) 3 0 "" ""
    if raw = "" then none
    else
      let sia := buildSourcesIndexFinanceFirst sources_fin
        source_articles_fin all_articles
      let sources_all := sia.1
      let source_articles_all := sia.2
      let obj0 := match parse raw with
        | some o => o
        | none => fallbackDoc d raw sources_all
      let obj1 := coerceSchemaDefaults obj0 d
      let obj2 := { obj1 with
        by_the_numbers := [], word_cloud := [], keywords := [],
        article_summaries := per_article,
        focus_type := fsl.1, focus_style := fsl.2.1,
        lead_variant := fsl.2.2 }
      let obj3 := if pyStrip obj2.focus_topic = "" then
          { obj2 with focus_topic := strTake (pyStrip obj2.header.title) 12 }
        else obj2
      let obj4 := { obj3 with
        header := { obj3.header with
          lede := strip_focus_markers obj3.header.lede },
        why_it_matters := strip_focus_markers obj3.why_it_matters,
        big_picture := strip_focus_markers obj3.big_picture }
      let wd := max 1 (if window_days_raw = 0 then 3 else window_days_raw)
      let rh := extractRecentHotspots cleanText olOracle clOracle
        dateStrForArticle modelName ver batch_raw ol_th db sources_all
        source_articles_all end_utc top_k_raw tag_raw max_cl_raw
      let obj5 := { obj4 with
        recent_hotspots_meta :=
          { window_days := wd, total_hotspots := (rh.1.length : Int),
            window_end_utc := isoformatNaive end_utc },
        recent_hotspots := rh.1 }
      let obj6 := normalizeSourcesAndCitations obj5 sources_all
      let obj7 := { obj6 with
        keywords := extractTodayKeywords obj6.recent_hotspots
          source_articles_all }
      let s9 := sanitize_sensitive phrases obj7
      let allowed_numbers := extract_number_spans bm.1 80
      let s10 := strip_unverified_numbers_from_by_the_numbers s9.1
        allowed_numbers
      some { s10.1 with by_the_numbers := [], word_cloud := [] }

/-- A fully-empty report document (fixture base for concrete scenarios). -/
def emptyDoc : Doc :=
  { schema := "", focus_topic := "", visual_focus := ""
    header := { title := "", date := "", lede := "", lede_citations := [] }
    why_it_matters := "", why_citations := []
    big_picture := "", big_picture_citations := []
    by_the_numbers := [], word_cloud := [], keywords := [], hotwords := []
    recent_hotwords := [], recent_hotspots := []
    recent_hotspots_meta := { window_days := 0, total_hotspots := 0, window_end_utc := "" }
    article_summaries := [], focus_type := "", focus_style := "", lead_variant := ""
    sources := [] }

/-- Scenario C fixture: material containing "专项资金 500万元". -/
def scenarioMaterial : String := "材料：专项资金 500万元下达"

def btnRowKeep : BtnRow :=
  { indicator := "专项资金", value := "500万元的专项资金", note := "", citations := [] }

def btnRowDrop : BtnRow :=
  { indicator := "资金", value := "800万元", note := "", citations := [] }

def scenarioDoc : Doc :=
  { emptyDoc with by_the_numbers := [btnRowKeep, btnRowDrop] }

/-- Fixtures for the citation-normalizer witness. -/
def normObj : Doc :=
  { emptyDoc with
    header := { emptyDoc.header with lede_citations := [3, 7, 3] }
    why_citations := [2] }

def normPool : List SourceEntry :=
  [{ id := 3, account := "a", title := "t3", url := "u3", date := "d3" },
   { id := 2, account := "b", title := "t2", url := "u2", date := "d2" }]

/-- Fixtures for the per-article summarizer: a source whose article has an
empty title and empty content, and one whose article has a real title. -/
def c7src : SourceEntry :=
  { id := 1, account := "", title := "", url := "", date := "" }

def c7article : Article :=
  { id := 10, title := "", content := "", account := "", article_url := "",
    published_at := none }

def c7articleT : Article :=
  { c7article with title := " 专项资金下达 " }

def c7entry : PerArticleSummary :=
  { source_id := 1, title := "专项资金下达", summary := "专项资金下达" }

/-- Fixtures for the `generate` entry point: one finance article, a failed
draft parse (fallback path), empty oracles. -/
def c10Arts : List Article :=
  [{ id := 11, title := "补贴新政", content := "今年专项资金安排 500万元。",
     account := "accA", article_url := "http://u1",
     published_at := some 1700000000 }]

def c10gen : Option Doc :=
  generate (fun s => s) ["绝密"] (fun _ => []) (fun _ => []) (fun _ _ _ => "")
    (fun _ _ => "draft") (fun _ => none) (fun _ _ => false) "m" "v"
    1 6 2 8 2 120 400 100 100 3 [] "2025-10-12" c10Arts [] 1700000100 3
    [] [] []

def c10doc : Doc :=
  c10gen.getD emptyDoc


/-! # PART II: THEOREMS -/

theorem dedupF_nil : dedupF [] = [] := by simp [dedupF]

theorem dedupF_cons (x : Int) (xs : List Int) :
    dedupF (x :: xs) = x :: dedupF (xs.filter (fun y => y ≠ x)) := by
  rw [dedupF]

theorem mem_dedupF {a : Int} : ∀ {l : List Int}, a ∈ dedupF l ↔ a ∈ l
  | [] => by simp [dedupF]
  | x :: xs => by
    rw [dedupF_cons]
    by_cases hax : a = x
    · subst hax; simp
    · simp only [List.mem_cons, hax, false_or]
      rw [@mem_dedupF a (xs.filter (fun y => y ≠ x))]
      simp [List.mem_filter, hax]
termination_by l => l.length
decreasing_by
  simp only [List.length_cons]
  exact Nat.lt_succ_of_le (List.length_filter_le _ _)

theorem dedupF_nodup : ∀ (l : List Int), (dedupF l).Nodup
  | [] => by simp [dedupF]
  | x :: xs => by
    rw [dedupF_cons]
    refine List.nodup_cons.2 ⟨?_, dedupF_nodup _⟩
    intro hmem
    have := mem_dedupF.1 hmem
    simp [List.mem_filter] at this
termination_by l => l.length
decreasing_by
  simp only [List.length_cons]
  exact Nat.lt_succ_of_le (List.length_filter_le _ _)

theorem dedupF_length_le : ∀ (l : List Int), (dedupF l).length ≤ l.length
  | [] => by simp [dedupF]
  | x :: xs => by
    rw [dedupF_cons]
    simp only [List.length_cons]
    exact Nat.succ_le_succ
      (Nat.le_trans (dedupF_length_le _) (List.length_filter_le _ _))
termination_by l => l.length
decreasing_by
  simp only [List.length_cons]
  exact Nat.lt_succ_of_le (List.length_filter_le _ _)

/-- `addUnseen acc l` appends exactly the first occurrences of the elements
of `l` that are not already in `acc`. -/
theorem addUnseen_eq_dedupF :
    ∀ (l acc : List Int), addUnseen acc l = acc ++ dedupF (l.filter (fun y => y ∉ acc))
  | [], acc => by simp [addUnseen, dedupF]
  | v :: vs, acc => by
    by_cases hv : v ∈ acc
    · rw [addUnseen, if_pos hv, addUnseen_eq_dedupF vs acc]
      congr 2
      simp only [List.filter_cons]
      rw [if_neg (by simpa using hv)]
    · rw [addUnseen, if_neg hv, addUnseen_eq_dedupF vs (acc ++ [v])]
      simp only [List.filter_cons]
      rw [if_pos (by simpa using hv)]
      rw [dedupF_cons, List.append_assoc, List.singleton_append]
      congr 3
      rw [List.filter_filter]
      apply List.filter_congr
      intro a _
      simp only [List.mem_append, List.mem_singleton, decide_not]
      by_cases hav : a = v
      · subst hav; simp
      · simp [hav, Bool.and_comm]
termination_by l => l.length

theorem addUnseen_nil_eq (l : List Int) : addUnseen [] l = dedupF l := by
  rw [addUnseen_eq_dedupF]
  simp

theorem addUnseen_append (acc : List Int) (l₁ l₂ : List Int) :
    addUnseen acc (l₁ ++ l₂) = addUnseen (addUnseen acc l₁) l₂ := by
  induction l₁ generalizing acc with
  | nil => simp [addUnseen]
  | cons x xs ih =>
    by_cases hx : x ∈ acc <;> simp [addUnseen, hx, ih]

theorem dedupF_append :
    ∀ (l₁ l₂ : List Int),
      dedupF (l₁ ++ l₂) = dedupF l₁ ++ dedupF (l₂.filter (fun y => y ∉ l₁))
  | [], l₂ => by simp [dedupF_nil]
  | x :: xs, l₂ => by
    rw [List.cons_append, dedupF_cons, dedupF_cons, List.filter_append,
      dedupF_append (xs.filter (fun y => y ≠ x)) (l₂.filter (fun y => y ≠ x))]
    simp only [List.cons_append, List.cons.injEq, true_and]
    congr 2
    rw [List.filter_filter]
    apply List.filter_congr
    intro a _
    by_cases hax : a = x
    · subst hax; simp
    · by_cases haxs : a ∈ xs <;> simp [hax, haxs, List.mem_filter]
termination_by l₁ => l₁.length
decreasing_by
  simp only [List.length_cons]
  exact Nat.lt_succ_of_le (List.length_filter_le _ _)

theorem dedupF_idem (l : List Int) : dedupF (dedupF l) = dedupF l := by
  have h : ∀ (m : List Int), m.Nodup → dedupF m = m := by
    intro m
    induction m with
    | nil => simp [dedupF]
    | cons x xs ih =>
      intro hnd
      rw [dedupF_cons]
      rcases List.nodup_cons.1 hnd with ⟨hx, hxs⟩
      rw [List.filter_eq_self.2, ih hxs]
      intro a ha
      simp only [ne_eq, decide_eq_true_eq]
      rintro rfl; exact hx ha
  exact h _ (dedupF_nodup l)

/-- Filtering commutes with first-occurrence dedup. -/
theorem dedupF_filter_dedupF (p : Int → Bool) :
    ∀ (l : List Int), dedupF ((dedupF l).filter p) = dedupF (l.filter p)
  | [] => by simp [dedupF]
  | x :: xs => by
    have ih := dedupF_filter_dedupF p (xs.filter (fun y => y ≠ x))
    have hmp : (xs.filter (fun y => y ≠ x)).filter p
        = (xs.filter p).filter (fun y => y ≠ x) := by
      rw [List.filter_filter, List.filter_filter]
      apply List.filter_congr
      intro a _
      exact Bool.and_comm _ _
    rw [dedupF_cons, List.filter_cons, List.filter_cons]
    by_cases hpx : p x
    · simp only [if_pos hpx]
      rw [dedupF_cons, dedupF_cons]
      congr 1
      have h1 : ((dedupF (xs.filter (fun y => y ≠ x))).filter p).filter (fun y => y ≠ x)
          = (dedupF (xs.filter (fun y => y ≠ x))).filter p := by
        apply List.filter_eq_self.2
        intro a ha
        have ha' := List.mem_filter.1 ha
        have := mem_dedupF.1 ha'.1
        simp only [List.mem_filter, ne_eq, decide_eq_true_eq] at this
        simp [this.2]
      rw [h1, ih, hmp]
    · simp only [if_neg hpx]
      rw [ih, hmp]
      congr 1
      apply List.filter_eq_self.2
      intro a ha
      have hap := List.mem_filter.1 ha
      simp only [ne_eq, decide_eq_true_eq]
      rintro rfl
      rw [hap.2] at hpx
      exact hpx rfl
termination_by l => l.length
decreasing_by
  simp only [List.length_cons]
  exact Nat.lt_succ_of_le (List.length_filter_le _ _)

theorem dedupF_filter_congr (p : Int → Bool) {l₁ l₂ : List Int}
    (h : dedupF l₁ = dedupF l₂) :
    dedupF (l₁.filter p) = dedupF (l₂.filter p) := by
  rw [← dedupF_filter_dedupF p l₁, ← dedupF_filter_dedupF p l₂, h]

/-- First-occurrence dedup commutes with `filterMap` by a semi-injective
partial map (the old-id → new-id mapping of the citation normaliser). -/
theorem dedupF_filterMap (g : Int → Option Int)
    (hg : ∀ a b v, g a = some v → g b = some v → a = b) :
    ∀ (l : List Int), dedupF (l.filterMap g) = (dedupF l).filterMap g
  | [] => by simp [dedupF_nil]
  | x :: xs => by
    have ihm := dedupF_filterMap g hg (xs.filter (fun y => y ≠ x))
    rw [dedupF_cons, List.filterMap_cons, List.filterMap_cons]
    cases hx : g x with
    | none =>
      rw [← ihm]
      congr 1
      rw [List.filterMap_filter]
      apply List.filterMap_congr
      intro a _
      by_cases hax : a = x
      · subst hax; simp [hx]
      · simp [hax]
    | some v =>
      rw [dedupF_cons, ← ihm]
      congr 2
      rw [List.filter_filterMap, List.filterMap_filter]
      apply List.filterMap_congr
      intro a _
      by_cases hax : a = x
      · subst hax
        simp [hx, Option.filter]
      · have hd : decide (a ≠ x) = true := by simp [hax]
        cases ha : g a with
        | none => simp [Option.filter, hd]
        | some w =>
          have hwv : w ≠ v := by
            intro hwv; subst hwv
            exact hax (hg a x w ha hx)
          simp [Option.filter, hd, hwv]
termination_by l => l.length
decreasing_by
  simp only [List.length_cons]
  exact Nat.lt_succ_of_le (List.length_filter_le _ _)

theorem dedupF_listFlat_dedupF :
    ∀ (ls : List (List Int)),
      dedupF (listFlat (ls.map dedupF)) = dedupF (listFlat ls)
  | [] => rfl
  | l :: ls => by
    simp only [List.map_cons, listFlat]
    rw [dedupF_append, dedupF_append, dedupF_idem]
    congr 1
    have hfc : (listFlat (ls.map dedupF)).filter (fun y => y ∉ dedupF l)
        = (listFlat (ls.map dedupF)).filter (fun y => y ∉ l) := by
      apply List.filter_congr
      intro a _
      simp [mem_dedupF]
    rw [hfc]
    exact dedupF_filter_congr _ (dedupF_listFlat_dedupF ls)

theorem filterMap_listFlat (g : Int → Option Int) :
    ∀ (ls : List (List Int)),
      (listFlat ls).filterMap g = listFlat (ls.map (fun l => l.filterMap g))
  | [] => rfl
  | l :: ls => by
    simp only [listFlat, List.map_cons, List.filterMap_append]
    rw [filterMap_listFlat g ls]

theorem perm_insertDesc {α : Type} (key : α → Int) (x : α) :
    ∀ (l : List α), (insertDesc key x l).Perm (x :: l)
  | [] => List.Perm.refl _
  | y :: ys => by
    rw [insertDesc]
    by_cases h : key y ≤ key x
    · rw [if_pos h]
    · rw [if_neg h]
      exact List.Perm.trans (List.Perm.cons y (perm_insertDesc key x ys))
        (List.Perm.swap x y ys)

theorem perm_sortDesc {α : Type} (key : α → Int) :
    ∀ (l : List α), (sortDesc key l).Perm l
  | [] => List.Perm.refl _
  | x :: xs =>
    List.Perm.trans (perm_insertDesc key x (sortDesc key xs))
      (List.Perm.cons x (perm_sortDesc key xs))

theorem sorted_insertDesc {α : Type} (key : α → Int) (x : α) (l : List α)
    (hl : l.Pairwise (fun a b => key b ≤ key a)) :
    (insertDesc key x l).Pairwise (fun a b => key b ≤ key a) := by
  induction l with
  | nil => simp [insertDesc]
  | cons y ys ih =>
    rw [insertDesc]
    rcases List.pairwise_cons.1 hl with ⟨hy, hys⟩
    by_cases h : key y ≤ key x
    · rw [if_pos h]
      refine List.pairwise_cons.2 ⟨?_, hl⟩
      intro b hb
      rcases List.mem_cons.1 hb with rfl | hb2
      · exact h
      · exact le_trans (hy _ hb2) h
    · rw [if_neg h]
      refine List.pairwise_cons.2 ⟨?_, ih hys⟩
      intro b hb
      rcases List.mem_cons.1 ((perm_insertDesc key x ys).mem_iff.1 hb) with rfl | hb2
      · exact le_of_not_le h
      · exact hy _ hb2

theorem sorted_sortDesc {α : Type} (key : α → Int) :
    ∀ (l : List α), (sortDesc key l).Pairwise (fun a b => key b ≤ key a)
  | [] => List.Pairwise.nil
  | x :: xs => sorted_insertDesc key x _ (sorted_sortDesc key xs)

theorem take_min_length {α : Type} (l : List α) (n : Nat) :
    l.take (min l.length n) = l.take n := by
  rcases Nat.le_total l.length n with h | h
  · rw [min_eq_left h, List.take_of_length_le (le_refl _), List.take_of_length_le h]
  · rw [min_eq_right h]

theorem pairwise_take {α : Type} {R : α → α → Prop} {l : List α} (n : Nat)
    (h : l.Pairwise R) : (l.take n).Pairwise R :=
  List.Pairwise.sublist (List.take_sublist n l) h

/-! ### Citation-normalizer lemmas -/

theorem intRange_length (s : Int) (n : Nat) : (intRange s n).length = n := by
  rw [intRange, List.length_map, List.length_range]

theorem intRange_succ (s : Int) (n : Nat) :
    intRange s (n + 1) = s :: intRange (s + 1) n := by
  rw [intRange, List.range_succ_eq_map, List.map_cons, List.map_map]
  congr 1
  · simp
  · rw [intRange]
    apply List.map_congr_left
    intro k _
    simp only [Function.comp_apply]
    push_cast
    ring

theorem mem_intRange {a s : Int} {n : Nat} :
    a ∈ intRange s n ↔ s ≤ a ∧ a < s + (n : Int) := by
  induction n generalizing s with
  | zero => simp [intRange]
  | succ m ih =>
    rw [intRange_succ, List.mem_cons, ih]
    constructor
    · rintro (rfl | ⟨h1, h2⟩)
      · constructor <;> omega
      · constructor <;> omega
    · rintro ⟨h1, h2⟩
      by_cases ha : a = s
      · exact Or.inl ha
      · right
        constructor <;> omega

theorem intRange_nodup (s : Int) (n : Nat) : (intRange s n).Nodup := by
  induction n generalizing s with
  | zero => simp [intRange]
  | succ m ih =>
    rw [intRange_succ]
    refine List.nodup_cons.2 ⟨?_, ih (s + 1)⟩
    rw [mem_intRange]
    omega

theorem listFlat_append (l₁ l₂ : List (List Int)) :
    listFlat (l₁ ++ l₂) = listFlat l₁ ++ listFlat l₂ := by
  induction l₁ with
  | nil => rfl
  | cons x xs ih => simp [listFlat, ih]

theorem foldl_addUnseen (ls : List (List Int)) :
    ∀ (u : List Int), ls.foldl addUnseen u = addUnseen u (listFlat ls) := by
  induction ls with
  | nil => intro u; rfl
  | cons x xs ih =>
    intro u
    rw [List.foldl_cons, ih, listFlat, addUnseen_append]

theorem collectUsed_eq (d : Doc) :
    collectUsed d = dedupF (listFlat (citationArrays d)) := by
  have hf : ∀ {α : Type} (rows : List α) (f : α → List Int) (u : List Int),
      rows.foldl (fun acc r => addUnseen acc (f r)) u
        = addUnseen u (listFlat (rows.map f)) := by
    intro α rows f u
    rw [← foldl_addUnseen, List.foldl_map]
  rw [← addUnseen_nil_eq]
  simp only [collectUsed, citationArrays, hf, listFlat, listFlat_append,
    addUnseen_append]

theorem remapListAux_cons_none {m : List (Int × Int)} {v : Int}
    (out : List Int) (vs : List Int) (h : lookupFirst m v = none) :
    remapListAux m out (v :: vs) = remapListAux m out vs := by
  simp [remapListAux, h]

theorem remapListAux_cons_some {m : List (Int × Int)} {v nid : Int}
    (out : List Int) (vs : List Int) (h : lookupFirst m v = some nid) :
    remapListAux m out (v :: vs)
      = if nid ∈ out then remapListAux m out vs
        else remapListAux m (out ++ [nid]) vs := by
  simp [remapListAux, h]

theorem remapListAux_eq (m : List (Int × Int)) :
    ∀ (l : List Int) (out : List Int),
      remapListAux m out l
        = addUnseen out (l.filterMap (fun v => lookupFirst m v)) := by
  intro l
  induction l with
  | nil => intro out; rfl
  | cons v vs ih =>
    intro out
    rw [List.filterMap_cons]
    cases hv : lookupFirst m v with
    | none =>
      rw [remapListAux_cons_none out vs hv]
      exact ih out
    | some nid =>
      rw [remapListAux_cons_some out vs hv, addUnseen]
      by_cases hmem : nid ∈ out
      · rw [if_pos hmem, if_pos hmem]
        exact ih out
      · rw [if_neg hmem, if_neg hmem]
        exact ih (out ++ [nid])

theorem remapList_eq (m : List (Int × Int)) (l : List Int) :
    remapList m l = dedupF (l.filterMap (fun v => lookupFirst m v)) := by
  rw [remapList, remapListAux_eq, addUnseen_nil_eq]

theorem buildMapping_cons_none {pool : List SourceEntry} {old : Int}
    (next : Int) (rest : List Int) (h : poolLookup pool old = none) :
    buildMappingAux pool next (old :: rest) = buildMappingAux pool next rest := by
  simp [buildMappingAux, h]

theorem buildMapping_cons_some {pool : List SourceEntry} {old : Int}
    {src : SourceEntry} (next : Int) (rest : List Int)
    (h : poolLookup pool old = some src) :
    buildMappingAux pool next (old :: rest)
      = ((old, next) :: (buildMappingAux pool (next + 1) rest).1,
          { id := next, account := src.account, title := src.title,
            url := src.url, date := src.date }
            :: (buildMappingAux pool (next + 1) rest).2) := by
  simp [buildMappingAux, h]

theorem buildMapping_fst_cons_some {pool : List SourceEntry} {old : Int}
    {src : SourceEntry} (next : Int) (rest : List Int)
    (h : poolLookup pool old = some src) :
    (buildMappingAux pool next (old :: rest)).1
      = (old, next) :: (buildMappingAux pool (next + 1) rest).1 := by
  rw [buildMapping_cons_some next rest h]

theorem buildMapping_snd_cons_some {pool : List SourceEntry} {old : Int}
    {src : SourceEntry} (next : Int) (rest : List Int)
    (h : poolLookup pool old = some src) :
    (buildMappingAux pool next (old :: rest)).2
      = { id := next, account := src.account, title := src.title,
          url := src.url, date := src.date }
          :: (buildMappingAux pool (next + 1) rest).2 := by
  rw [buildMapping_cons_some next rest h]

/-- Keys of the mapping come from `used`. -/
theorem buildMapping_key_mem {pool : List SourceEntry} :
    ∀ {used : List Int} {next n v : Int},
      lookupFirst (buildMappingAux pool next used).1 n = some v → n ∈ used := by
  intro used
  induction used with
  | nil => intro next n v h; simp [buildMappingAux, lookupFirst] at h
  | cons old rest ih =>
    intro next n v h
    cases hp : poolLookup pool old with
    | none =>
      rw [buildMapping_cons_none next rest hp] at h
      exact List.mem_cons_of_mem _ (ih h)
    | some src =>
      rw [buildMapping_cons_some next rest hp] at h
      simp only [lookupFirst] at h
      by_cases hn : old = n
      · exact hn ▸ List.mem_cons_self _ _
      · rw [if_neg hn] at h
        exact List.mem_cons_of_mem _ (ih h)

/-- Values of the mapping are at least the starting id. -/
theorem buildMapping_value_ge {pool : List SourceEntry} :
    ∀ {used : List Int} {next n v : Int},
      lookupFirst (buildMappingAux pool next used).1 n = some v → next ≤ v := by
  intro used
  induction used with
  | nil => intro next n v h; simp [buildMappingAux, lookupFirst] at h
  | cons old rest ih =>
    intro next n v h
    cases hp : poolLookup pool old with
    | none =>
      rw [buildMapping_cons_none next rest hp] at h
      exact ih h
    | some src =>
      rw [buildMapping_cons_some next rest hp] at h
      simp only [lookupFirst] at h
      by_cases hn : old = n
      · rw [if_pos hn, Option.some.injEq] at h
        omega
      · rw [if_neg hn] at h
        have := ih h
        omega

/-- The old→new mapping is injective on its domain. -/
theorem buildMapping_semiInj {pool : List SourceEntry} :
    ∀ {used : List Int} {next a b v : Int},
      lookupFirst (buildMappingAux pool next used).1 a = some v →
      lookupFirst (buildMappingAux pool next used).1 b = some v → a = b := by
  intro used
  induction used with
  | nil => intro next a b v ha _; simp [buildMappingAux, lookupFirst] at ha
  | cons old rest ih =>
    intro next a b v ha hb
    cases hp : poolLookup pool old with
    | none =>
      rw [buildMapping_cons_none next rest hp] at ha hb
      exact ih ha hb
    | some src =>
      rw [buildMapping_cons_some next rest hp] at ha hb
      simp only [lookupFirst] at ha hb
      by_cases hna : old = a <;> by_cases hnb : old = b
      · omega
      · rw [if_pos hna, Option.some.injEq] at ha
        rw [if_neg hnb] at hb
        have := buildMapping_value_ge hb
        omega
      · rw [if_neg hna] at ha
        rw [if_pos hnb, Option.some.injEq] at hb
        have := buildMapping_value_ge ha
        omega
      · rw [if_neg hna] at ha
        rw [if_neg hnb] at hb
        exact ih ha hb

/-- Walking `used` through the finished mapping yields exactly the new ids
`next, next+1, ...`, in order. -/
theorem buildMapping_filterMap {pool : List SourceEntry} :
    ∀ {used : List Int}, used.Nodup → ∀ (next : Int),
      used.filterMap (fun n => lookupFirst (buildMappingAux pool next used).1 n)
        = intRange next
            (used.filter (fun n => (poolLookup pool n).isSome)).length := by
  intro used
  induction used with
  | nil => intro _ next; simp [intRange]
  | cons old rest ih =>
    intro hnd next
    rcases List.nodup_cons.1 hnd with ⟨hold, hrest⟩
    cases hp : poolLookup pool old with
    | none =>
      rw [buildMapping_cons_none next rest hp, List.filterMap_cons]
      have hnone : lookupFirst (buildMappingAux pool next rest).1 old = none := by
        cases hl : lookupFirst (buildMappingAux pool next rest).1 old with
        | none => rfl
        | some v => exact absurd (buildMapping_key_mem hl) hold
      rw [hnone, List.filter_cons_of_neg (by simp [hp]), ih hrest next]
    | some src =>
      have hcong : rest.filterMap
          (fun n => lookupFirst ((old, next)
            :: (buildMappingAux pool (next + 1) rest).1) n)
          = rest.filterMap
              (fun n => lookupFirst (buildMappingAux pool (next + 1) rest).1 n) := by
        apply List.filterMap_congr
        intro n hn
        have : old ≠ n := fun h => hold (h ▸ hn)
        simp [lookupFirst, this]
      have hlook : (fun n => lookupFirst ((old, next)
            :: (buildMappingAux pool (next + 1) rest).1) n) old = some next := by
        simp [lookupFirst]
      rw [buildMapping_fst_cons_some next rest hp,
        List.filterMap_cons_some hlook, hcong, ih hrest (next + 1),
        List.filter_cons_of_pos (by simp [hp]), List.length_cons,
        intRange_succ]

/-- Ids of the rebuilt sources are `next, next+1, ...`, in order. -/
theorem buildMapping_source_ids {pool : List SourceEntry} :
    ∀ (used : List Int) (next : Int),
      (buildMappingAux pool next used).2.map (fun s => s.id)
        = intRange next
            (used.filter (fun n => (poolLookup pool n).isSome)).length := by
  intro used
  induction used with
  | nil => intro next; simp [buildMappingAux, intRange]
  | cons old rest ih =>
    intro next
    cases hp : poolLookup pool old with
    | none =>
      rw [buildMapping_cons_none next rest hp,
        List.filter_cons_of_neg (by simp [hp])]
      exact ih next
    | some src =>
      rw [buildMapping_snd_cons_some next rest hp,
        List.filter_cons_of_pos (by simp [hp]), List.map_cons, ih (next + 1),
        List.length_cons, intRange_succ]

theorem mem_listFlat {n : Int} : ∀ {ls : List (List Int)},
    n ∈ listFlat ls ↔ ∃ l ∈ ls, n ∈ l := by
  intro ls
  induction ls with
  | nil => simp [listFlat]
  | cons x xs ih => simp [listFlat, ih, List.mem_append]

theorem forall2_map_le {α : Type} (f : List α → List α) (ls : List (List α))
    (h : ∀ l ∈ ls, (f l).length ≤ l.length) :
    List.Forall₂ (fun o i => o.length ≤ i.length) (ls.map f) ls := by
  induction ls with
  | nil => exact List.Forall₂.nil
  | cons x xs ih =>
    exact List.Forall₂.cons (h x (List.mem_cons_self x xs))
      (ih (fun l hl => h l (List.mem_cons_of_mem x hl)))

theorem filter_id_length_one :
    ∀ (srcs : List SourceEntry) (n : Int),
      (srcs.map (fun s => s.id)).Nodup → n ∈ srcs.map (fun s => s.id) →
      (srcs.filter (fun s => s.id = n)).length = 1 := by
  intro srcs
  induction srcs with
  | nil => intro n _ hmem; simp at hmem
  | cons s rest ih =>
    intro n hnd hmem
    rw [List.map_cons] at hnd hmem
    rcases List.nodup_cons.1 hnd with ⟨hs, hrest⟩
    by_cases hid : s.id = n
    · rw [List.filter_cons_of_pos (by simpa using hid), List.length_cons]
      have : rest.filter (fun s => s.id = n) = [] := by
        rw [List.filter_eq_nil_iff]
        intro x hx
        simp only [decide_eq_true_eq]
        intro hxn
        exact hs (by rw [hid, ← hxn]; exact List.mem_map_of_mem _ hx)
      rw [this]
      rfl
    · rw [List.filter_cons_of_neg (by simpa using hid)]
      apply ih n hrest
      rcases List.mem_cons.1 hmem with h | h
      · exact absurd h.symm hid
      · exact h

/-- The remapped document's citation arrays are the originals pushed through
`remap_list`. -/
theorem citationArrays_normalize (obj : Doc) (pool : List SourceEntry) :
    citationArrays (normalizeSourcesAndCitations obj pool)
      = (citationArrays obj).map
          (fun l => remapList (buildMappingAux pool 1 (collectUsed obj)).1 l) := by
  simp only [normalizeSourcesAndCitations, citationArrays, List.map_cons,
    List.map_append, List.map_map, Function.comp_def]

theorem collectUsed_normalize (obj : Doc) (pool : List SourceEntry) :
    collectUsed (normalizeSourcesAndCitations obj pool)
      = (collectUsed obj).filterMap
          (fun n => lookupFirst (buildMappingAux pool 1 (collectUsed obj)).1 n) := by
  rw [collectUsed_eq, citationArrays_normalize]
  have h1 : (citationArrays obj).map
      (fun l => remapList (buildMappingAux pool 1 (collectUsed obj)).1 l)
      = ((citationArrays obj).map (fun l => l.filterMap
          (fun n => lookupFirst (buildMappingAux pool 1 (collectUsed obj)).1 n))).map
            dedupF := by
    rw [List.map_map]
    apply List.map_congr_left
    intro l _
    exact remapList_eq _ l
  rw [h1, dedupF_listFlat_dedupF, ← filterMap_listFlat,
    dedupF_filterMap _ (fun a b v ha hb => buildMapping_semiInj ha hb),
    ← collectUsed_eq]

/-! ### One-liner cache lemmas -/

theorem listFlat_chunksOfAux {α : Type} (n : Nat) (hn : 1 ≤ n) :
    ∀ (fuel : Nat) (l : List α), l.length ≤ fuel →
      listFlat (chunksOfAux n fuel l) = l := by
  intro fuel
  induction fuel with
  | zero =>
    intro l hl
    have : l = [] := List.length_eq_zero.1 (Nat.le_zero.1 hl)
    subst this
    rfl
  | succ f ih =>
    intro l hl
    cases l with
    | nil => rfl
    | cons x xs =>
      have hstep : chunksOfAux n (f + 1) (x :: xs)
          = (x :: xs).take n :: chunksOfAux n f ((x :: xs).drop n) := rfl
      rw [hstep, listFlat, ih ((x :: xs).drop n) ?_]
      · exact List.take_append_drop n (x :: xs)
      · simp only [List.length_drop, List.length_cons] at hl ⊢
        omega

theorem listFlat_chunksOf {α : Type} (n : Nat) (hn : 1 ≤ n) (l : List α) :
    listFlat (chunksOf n l) = l :=
  listFlat_chunksOfAux n hn l.length l (le_refl _)

theorem runOl_mem_mono (cleanText : String → String)
    (oracle : List (Int × String) → List OlRawItem)
    (modelName ver : String) (th : Int) :
    ∀ (bs : List (List Article)) (db : List OneLinerRow) (r : OneLinerRow),
      r ∈ db →
      r ∈ (runOlBatches cleanText oracle modelName ver th bs db).1 := by
  intro bs
  induction bs with
  | nil => intro db r hr; exact hr
  | cons b rest ih =>
    intro db r hr
    rw [runOlBatches]
    exact ih _ r (List.mem_append_left _ hr)

theorem runOl_covers (cleanText : String → String)
    (oracle : List (Int × String) → List OlRawItem)
    (modelName ver : String) (th : Int) :
    ∀ (bs : List (List Article)) (db : List OneLinerRow) (a : Article),
      a ∈ listFlat bs → 0 < a.id →
      ∃ r ∈ (runOlBatches cleanText oracle modelName ver th bs db).1,
        r.article_id = a.id ∧ r.prompt_version = ver := by
  intro bs
  induction bs with
  | nil => intro db a ha _; simp [listFlat] at ha
  | cons b rest ih =>
    intro db a ha hpos
    rw [listFlat, List.mem_append] at ha
    rw [runOlBatches]
    rcases ha with ha | ha
    · refine ⟨mkOneLinerRow modelName ver th a
        (olResLookup (if (batchItems cleanText b).isEmpty then []
          else oracle (batchItems cleanText b)) a.id), ?_, rfl, rfl⟩
      apply runOl_mem_mono
      apply List.mem_append_right
      apply List.mem_filterMap.2
      exact ⟨a, ha, by rw [if_neg (by omega)]⟩
    · exact ih _ a ha hpos

theorem runOl_calls_zero (cleanText : String → String)
    (oracle : List (Int × String) → List OlRawItem)
    (modelName ver : String) (th : Int) :
    ∀ (bs : List (List Article)) (db : List OneLinerRow),
      (∀ a ∈ listFlat bs, a.id ≤ 0) →
      (runOlBatches cleanText oracle modelName ver th bs db).2 = 0 := by
  intro bs
  induction bs with
  | nil => intro db _; rfl
  | cons b rest ih =>
    intro db hle
    rw [runOlBatches]
    have hitems : batchItems cleanText b = [] := by
      rw [batchItems, List.filterMap_eq_nil_iff]
      intro a ha
      rw [if_pos (hle a (by rw [listFlat, List.mem_append]; exact Or.inl ha))]
    simp only [hitems, List.isEmpty_nil, if_true, Nat.zero_add]
    exact ih _ (fun a ha => hle a (by rw [listFlat, List.mem_append]; exact Or.inr ha))

theorem norm_one_liner_length (s : String) :
    (_normalize_one_liner s).length ≤ 20 := by
  rw [_normalize_one_liner]
  have hstrip : ∀ (cs : List Char), (pyStripL cs).length ≤ cs.length := by
    intro cs
    rw [pyStripL, List.length_reverse]
    calc ((cs.dropWhile isPySpace).reverse.dropWhile isPySpace).length
        ≤ (cs.dropWhile isPySpace).reverse.length :=
          (List.dropWhile_sublist _).length_le
      _ = (cs.dropWhile isPySpace).length := List.length_reverse _
      _ ≤ cs.length := (List.dropWhile_sublist _).length_le
  set t3 := pyStripL (stripTrailingPunctL
    ((pyStripL s.data).filter (fun c => !isPySpace c))) with ht3
  show (String.mk (if 20 < t3.length then pyStripL (t3.take 20) else t3)).length ≤ 20
  by_cases h : 20 < t3.length
  · rw [if_pos h]
    show (pyStripL (t3.take 20)).length ≤ 20
    calc (pyStripL (t3.take 20)).length ≤ (t3.take 20).length := hstrip _
      _ ≤ 20 := List.length_take_le _ _
  · rw [if_neg h]
    show t3.length ≤ 20
    omega

/-! ### Idempotence machinery -/

theorem lookupLast_map_none {srcs : List SourceEntry} {n : Int} :
    lookupLast (srcs.map (fun s => (s.id, s))) n = none
      ↔ n ∉ srcs.map (fun s => s.id) := by
  induction srcs with
  | nil => simp [lookupLast]
  | cons t rest ih =>
    simp only [List.map_cons, lookupLast, List.mem_cons]
    cases hl : lookupLast (rest.map (fun s => (s.id, s))) n with
    | some w =>
      simp only []
      constructor
      · intro h; exact absurd h (by simp)
      · intro h
        exact absurd (ih.2 (fun hmem => h (Or.inr hmem))) (by simp [hl])
    | none =>
      have hnot := ih.1 hl
      by_cases ht : t.id = n
      · simp [ht]
      · simp only [if_neg ht]
        constructor
        · intro _
          rintro (h | h)
          · exact ht h.symm
          · exact hnot h
        · intro _; trivial

theorem poolLookup_self {srcs : List SourceEntry}
    (hnd : (srcs.map (fun s => s.id)).Nodup) :
    ∀ s ∈ srcs, poolLookup srcs s.id = some s := by
  induction srcs with
  | nil => intro s hs; simp at hs
  | cons t rest ih =>
    intro s hs
    rw [List.map_cons] at hnd
    rcases List.nodup_cons.1 hnd with ⟨ht, hrest⟩
    rw [poolLookup, List.map_cons, lookupLast]
    rcases List.mem_cons.1 hs with rfl | hmem
    · have hnone : lookupLast (rest.map (fun x => (x.id, x))) s.id = none :=
        lookupLast_map_none.2 ht
      rw [hnone, if_pos rfl]
    · have := ih hrest s hmem
      rw [poolLookup] at this
      rw [this]

/-- Rebuilding a pool whose entries already carry consecutive ids returns an
identity mapping and the very same entries. -/
theorem buildMapping_self (fullPool : List SourceEntry) :
    ∀ (tail : List SourceEntry) (next : Int),
      (∀ s ∈ tail, poolLookup fullPool s.id = some s) →
      tail.map (fun s => s.id) = intRange next tail.length →
      buildMappingAux fullPool next (tail.map (fun s => s.id))
        = (tail.map (fun s => (s.id, s.id)), tail) := by
  intro tail
  induction tail with
  | nil => intro next _ _; simp [buildMappingAux]
  | cons s rest ih =>
    intro next hself hids
    rw [List.map_cons, List.length_cons, intRange_succ] at hids
    have hsid : s.id = next := (List.cons_eq_cons.1 hids).1
    have hrest : rest.map (fun x => x.id) = intRange (next + 1) rest.length :=
      (List.cons_eq_cons.1 hids).2
    have hlook : poolLookup fullPool s.id = some s :=
      hself s (List.mem_cons_self s rest)
    rw [List.map_cons, buildMapping_cons_some next (rest.map (fun x => x.id)) hlook,
      ih (next + 1) (fun x hx => hself x (List.mem_cons_of_mem s hx)) hrest]
    rcases s with ⟨sid, sacc, stitle, surl, sdate⟩
    simp only at hsid
    subst hsid
    simp

theorem lookupFirst_idPairs_some {srcs : List SourceEntry} {n : Int} :
    n ∈ srcs.map (fun s => s.id) →
    lookupFirst (srcs.map (fun s => (s.id, s.id))) n = some n := by
  induction srcs with
  | nil => simp
  | cons t rest ih =>
    intro h
    rw [List.map_cons, lookupFirst]
    by_cases ht : t.id = n
    · rw [if_pos ht, ht]
    · rw [if_neg ht]
      apply ih
      rcases List.mem_cons.1 h with h1 | h1
      · exact absurd h1.symm ht
      · exact h1

theorem remapListAux_id {m : List (Int × Int)} :
    ∀ (l : List Int) (out : List Int),
      l.Nodup → (∀ n ∈ l, lookupFirst m n = some n) → (∀ n ∈ l, n ∉ out) →
      remapListAux m out l = out ++ l := by
  intro l
  induction l with
  | nil => intro out _ _ _; simp [remapListAux]
  | cons v vs ih =>
    intro out hnd hlook hout
    rcases List.nodup_cons.1 hnd with ⟨hv, hvs⟩
    rw [remapListAux_cons_some out vs (hlook v (List.mem_cons_self v vs)),
      if_neg (hout v (List.mem_cons_self v vs)),
      ih (out ++ [v]) hvs (fun n hn => hlook n (List.mem_cons_of_mem v hn))
        (fun n hn => ?_)]
    · simp
    · rw [List.mem_append, List.mem_singleton]
      rintro (h | rfl)
      · exact hout n (List.mem_cons_of_mem v hn) h
      · exact hv hn

theorem remapList_id {m : List (Int × Int)} (l : List Int) (hnd : l.Nodup)
    (hlook : ∀ n ∈ l, lookupFirst m n = some n) :
    remapList m l = l := by
  rw [remapList, remapListAux_id l [] hnd hlook (by simp)]
  rfl

/-- Source ids after normalization are exactly `1..N`. -/
theorem normalize_source_ids (obj : Doc) (pool : List SourceEntry) :
    (normalizeSourcesAndCitations obj pool).sources.map (fun s => s.id)
      = intRange 1 (normalizeSourcesAndCitations obj pool).sources.length := by
  have hsrc : (normalizeSourcesAndCitations obj pool).sources
      = (buildMappingAux pool 1 (collectUsed obj)).2 := rfl
  have hN := @buildMapping_source_ids pool (collectUsed obj) 1
  have hlen2 : (buildMappingAux pool 1 (collectUsed obj)).2.length
      = ((collectUsed obj).filter
          (fun n => (poolLookup pool n).isSome)).length := by
    have h := congrArg List.length hN
    rw [List.length_map, intRange_length] at h
    exact h
  rw [hsrc, hN, hlen2]

/-- The referenced ids of a normalized document, in first-occurrence
traversal order, are exactly its source ids in order. -/
theorem normalize_collectUsed (obj : Doc) (pool : List SourceEntry) :
    collectUsed (normalizeSourcesAndCitations obj pool)
      = (normalizeSourcesAndCitations obj pool).sources.map (fun s => s.id) := by
  have hsrc : (normalizeSourcesAndCitations obj pool).sources
      = (buildMappingAux pool 1 (collectUsed obj)).2 := rfl
  have hN := @buildMapping_source_ids pool (collectUsed obj) 1
  have hnodup : (collectUsed obj).Nodup := by
    rw [collectUsed_eq]; exact dedupF_nodup _
  rw [collectUsed_normalize, buildMapping_filterMap hnodup 1, hsrc, hN]

/-! ### Recent-hotspot lemmas -/

theorem sids2Aux_mem (valid : List Int) :
    ∀ (xs : List (Option Int)) (acc : List Int),
    (∀ a ∈ acc, a ∈ valid) → ∀ x ∈ sids2Aux valid acc xs, x ∈ valid := by
  intro xs
  induction xs with
  | nil =>
    intro acc hacc x hx
    simp only [sids2Aux] at hx
    exact hacc x (List.mem_reverse.1 hx)
  | cons o xs ih =>
    intro acc hacc x hx
    cases o with
    | none =>
      simp only [sids2Aux] at hx
      exact ih acc hacc x hx
    | some n =>
      simp only [sids2Aux] at hx
      by_cases h : n ∈ valid ∧ n ∉ acc
      · rw [if_pos h] at hx
        refine ih (n :: acc) ?_ x hx
        intro a ha
        rcases List.mem_cons.1 ha with rfl | ha2
        · exact h.1
        · exact hacc a ha2
      · rw [if_neg h] at hx
        exact ih acc hacc x hx

theorem evOut_spec (valid : List Int) (name : String) (ev : EvRaw)
    (sids : List (Option Int)) :
    (evOut valid name ev sids).source_ids.length ≤ 6 ∧
    ∀ x ∈ (evOut valid name ev sids).source_ids, x ∈ valid := by
  constructor
  · exact List.length_take_le _ _
  · intro x hx
    exact sids2Aux_mem valid sids [] (by intro a ha; cases ha) x
      (List.take_subset _ _ hx)

theorem clusterLoop_spec (valid : List Int) (n : Nat) (l : List EvRaw) :
    ∀ (seen : List String) (out : List ClusterEvent),
    (∀ e ∈ out, e.source_ids.length ≤ 6 ∧ ∀ x ∈ e.source_ids, x ∈ valid) →
    ∀ e ∈ clusterLoop valid n l seen out,
    e.source_ids.length ≤ 6 ∧ ∀ x ∈ e.source_ids, x ∈ valid := by
  induction l with
  | nil =>
    intro seen out hout e he
    simp only [clusterLoop] at he
    exact hout e (List.mem_reverse.1 he)
  | cons ev evs ih =>
    intro seen out hout e he
    simp only [clusterLoop] at he
    by_cases h1 : (evName ev.event).data.length < 2
    · rw [if_pos h1] at he
      exact ih seen out hout e he
    · rw [if_neg h1] at he
      set nm := if 12 < (evName ev.event).data.length
        then pyStrip (strTake (evName ev.event) 12) else evName ev.event
        with hnm
      by_cases h2 : nm ∈ seen
      · rw [if_pos h2] at he
        exact ih seen out hout e he
      · rw [if_neg h2] at he
        cases hs : ev.source_ids with
        | none =>
          simp only [hs] at he
          exact ih seen out hout e he
        | some sids =>
          simp only [hs] at he
          by_cases h3 : (sids2Aux valid [] sids).length < 2
          · rw [if_pos h3] at he
            exact ih seen out hout e he
          · rw [if_neg h3] at he
            have hnew : ∀ e' ∈ evOut valid nm ev sids :: out,
                e'.source_ids.length ≤ 6 ∧
                ∀ x ∈ e'.source_ids, x ∈ valid := by
              intro e' he'
              rcases List.mem_cons.1 he' with rfl | h4
              · exact evOut_spec valid nm ev sids
              · exact hout e' h4
            by_cases h4 : n ≤ (evOut valid nm ev sids :: out).length
            · rw [if_pos h4] at he
              exact hnew e (List.mem_reverse.1 he)
            · rw [if_neg h4] at he
              exact ih (nm :: seen) _ hnew e he

theorem cluster_llm_spec (oracle : List ClusterItem → List EvRaw)
    (items : List ClusterItem) (t : Int) :
    ∀ e ∈ (cluster_recent_hotspots_llm oracle items t).1,
    e.source_ids.length ≤ 6 ∧
    ∀ x ∈ e.source_ids, x ∈ clusterValidIds items := by
  intro e he
  simp only [cluster_recent_hotspots_llm] at he
  by_cases h : items.isEmpty
  · rw [if_pos h] at he
    simp at he
  · rw [if_neg h] at he
    exact clusterLoop_spec _ _ _ [] []
      (by intro e' he'; cases he') e he

theorem clusterValidIds_spec {items : List ClusterItem} {x : Int}
    (hx : x ∈ clusterValidIds items) : ∃ it ∈ items, it.source_id = x := by
  simp only [clusterValidIds] at hx
  rcases List.mem_filterMap.1 hx with ⟨it, hit, hsome⟩
  by_cases h : 0 < it.source_id
  · rw [if_pos h] at hsome
    exact ⟨it, hit, Option.some.inj hsome⟩
  · rw [if_neg h] at hsome
    cases hsome

theorem clusterItemOf_sid {th : Int} {m : List (Int × OneLinerResult)}
    {sm : List (Int × (String × String))} {p : Int × Article}
    {it : ClusterItem} (h : clusterItemOf th m sm p = some it) :
    it.source_id = p.1 := by
  unfold clusterItemOf at h
  split at h
  · cases h
  · split at h
    · cases h
    · split at h
      · cases h
      · split at h
        · cases h
        · cases h
          rfl

theorem clusterItems_sid_mem {th : Int} {m : List (Int × OneLinerResult)}
    {sm : List (Int × (String × String))} {sa : List (Int × Article)}
    {it : ClusterItem} (h : it ∈ clusterItems th m sm sa) :
    it.source_id ∈ sa.map Prod.fst := by
  simp only [clusterItems] at h
  rcases List.mem_filterMap.1 h with ⟨p, hp, hps⟩
  rw [clusterItemOf_sid hps]
  exact List.mem_map.2 ⟨p, hp, rfl⟩

theorem hsClusterItems_sid_mem {cleanText : String → String}
    {olOracle : List (Int × String) → List OlRawItem} {modelName ver : String}
    {batch_raw ol_th tag_raw : Int} {db : List OneLinerRow}
    {srcs : List SourceEntry} {sa : List (Int × Article)} {it : ClusterItem}
    (h : it ∈ hsClusterItems cleanText olOracle modelName ver batch_raw
      ol_th tag_raw db srcs sa) :
    it.source_id ∈ sa.map Prod.fst := by
  simp only [hsClusterItems] at h
  exact clusterItems_sid_mem h

theorem hotspotOf_spec {d : Option Article → String}
    {sm : List (Int × (String × String))} {sa : List (Int × Article)}
    {ev : ClusterEvent} {h : Hotspot}
    (hh : hotspotOf d sm sa ev = some h) :
    2 ≤ ev.source_ids.length ∧ h.source_ids = ev.source_ids.take 6 ∧
    h.hotness = hotnessScore sm ev.source_ids := by
  unfold hotspotOf at hh
  split at hh
  · cases hh
  · rename_i hlen
    cases hh
    exact ⟨by omega, rfl, rfl⟩

/-- Result shape of `_extract_recent_hotspots`: either the empty result or
the sorted-and-clipped postprocessing of a clustering run over items all
drawn from the gate output. -/
theorem extract_shape (cleanText : String → String)
    (olOracle : List (Int × String) → List OlRawItem)
    (clOracle : List ClusterItem → List EvRaw)
    (dateStr : Option Article → String) (modelName ver : String)
    (batch_raw ol_th : Int) (db : List OneLinerRow) (srcs : List SourceEntry)
    (sa : List (Int × Article)) (end_utc top_k_raw tag_raw max_cl_raw : Int) :
    (extractRecentHotspots cleanText olOracle clOracle dateStr modelName ver
      batch_raw ol_th db srcs sa end_utc top_k_raw tag_raw max_cl_raw).1 = []
    ∨ ∃ items : List ClusterItem,
      (∀ it ∈ items, it ∈ hsClusterItems cleanText olOracle modelName ver
        batch_raw ol_th tag_raw db srcs sa) ∧
      (extractRecentHotspots cleanText olOracle clOracle dateStr modelName ver
          batch_raw ol_th db srcs sa end_utc top_k_raw tag_raw max_cl_raw).1
        = (sortDesc (fun h => h.hotness)
            ((cluster_recent_hotspots_llm clOracle items
                (max 3 (min 8 top_k_raw))).1.filterMap
              (hotspotOf dateStr (hsSidMeta sa srcs) sa))).take
            (max 3 (min 8 top_k_raw)).toNat := by
  simp only [extractRecentHotspots]
  by_cases h1 : (hsArticles sa srcs).isEmpty
  · rw [if_pos h1]
    left
    rfl
  · rw [if_neg h1]
    set CI := hsClusterItems cleanText olOracle modelName ver batch_raw ol_th
      tag_raw db srcs sa with hCI
    by_cases h2 : CI.length < 3
    · rw [if_pos h2]
      left
      rfl
    · rw [if_neg h2]
      set items := if (max 40 (min 220 max_cl_raw)).toNat < CI.length
        then (sortDesc (scoreItem sa end_utc) CI).take
          (max 40 (min 220 max_cl_raw)).toNat
        else CI with hitems
      by_cases h3 : (cluster_recent_hotspots_llm clOracle items
          (max 3 (min 8 top_k_raw))).1.isEmpty
      · rw [if_pos h3]
        left
        rfl
      · rw [if_neg h3]
        right
        refine ⟨items, ?_, rfl⟩
        intro it hit
        rw [hitems] at hit
        by_cases h4 : (max 40 (min 220 max_cl_raw)).toNat < CI.length
        · rw [if_pos h4] at hit
          exact (perm_sortDesc _ _).mem_iff.1 (List.take_subset _ _ hit)
        · rw [if_neg h4] at hit
          exact hit

/-! ### Per-article summarizer lemmas -/

theorem strTake_data_length (s : String) (n : Nat) :
    (strTake s n).data.length ≤ n := by
  rw [strTake]
  exact List.length_take_le _ _

theorem strTake_eq_empty {s : String} {n : Nat} (hn : 0 < n)
    (h : strTake s n = "") : s = "" := by
  rw [strTake] at h
  have h2 : s.data.take n = [] := congrArg String.data h
  rw [List.take_eq_nil_iff] at h2
  rcases h2 with h3 | h3
  · omega
  · cases s with
    | mk d =>
      have h4 : d = [] := h3
      rw [h4]

theorem fallback_empty {t r : String}
    (h : (if r = "" then strTake t 80 else r) = "") : t = "" := by
  by_cases hr : r = ""
  · rw [if_pos hr] at h
    exact strTake_eq_empty (by omega) h
  · rw [if_neg hr] at h
    exact absurd h hr

theorem perArticleEntry_spec {cleanText : String → String}
    {llm : Int → String → String → String} {pc ms : Nat}
    {sa : List (Int × Article)} {s : SourceEntry} {pa : PerArticleSummary}
    (h : perArticleEntry cleanText llm pc ms sa s = some pa) :
    pa.summary.data.length ≤ 120 ∧ pa.title.data.length ≤ 120 ∧
    (pa.summary = "" → pa.title = "") := by
  simp only [perArticleEntry] at h
  split at h
  · cases h
  · split at h
    · cases h
    · cases h
      refine ⟨strTake_data_length _ _, strTake_data_length _ _, ?_⟩
      intro hsum
      have hq := strTake_eq_empty (by omega) hsum
      have ht := fallback_empty hq
      show strTake _ 120 = ""
      rw [ht]
      rfl

/-! ### Claim theorems -/

/-- C2: citation normalization is idempotent — renormalizing a document it
produced, against that document's own sources list, returns the document
unchanged. -/
theorem C2_normalize_idempotent (obj : Doc) (pool : List SourceEntry) :
    normalizeSourcesAndCitations (normalizeSourcesAndCitations obj pool)
        (normalizeSourcesAndCitations obj pool).sources
      = normalizeSourcesAndCitations obj pool := by
  have ha := normalize_source_ids obj pool
  have hb := normalize_collectUsed obj pool
  set d := normalizeSourcesAndCitations obj pool with hd
  have hidsnd : (d.sources.map (fun s => s.id)).Nodup := by
    rw [ha]; exact intRange_nodup _ _
  have hself : ∀ s ∈ d.sources, poolLookup d.sources s.id = some s :=
    poolLookup_self hidsnd
  have hmp : buildMappingAux d.sources 1 (collectUsed d)
      = (d.sources.map (fun s => (s.id, s.id)), d.sources) := by
    rw [hb]
    exact buildMapping_self d.sources d.sources 1 hself ha
  have hmp1 : (buildMappingAux d.sources 1 (collectUsed d)).1
      = d.sources.map (fun s => (s.id, s.id)) := by rw [hmp]
  have hmp2 : (buildMappingAux d.sources 1 (collectUsed d)).2 = d.sources := by
    rw [hmp]
  have harr : ∀ l ∈ citationArrays d,
      remapList (buildMappingAux d.sources 1 (collectUsed d)).1 l = l := by
    intro l hl
    have hlnd : l.Nodup := by
      have hl2 := hl
      rw [hd, citationArrays_normalize] at hl2
      rcases List.mem_map.1 hl2 with ⟨l₀, -, rfl⟩
      rw [remapList_eq]
      exact dedupF_nodup _
    rw [hmp1]
    apply remapList_id l hlnd
    intro n hn
    apply lookupFirst_idPairs_some
    rw [← hb, collectUsed_eq]
    exact mem_dedupF.2 (mem_listFlat.2 ⟨l, hl, hn⟩)
  have hm1 : d.header.lede_citations ∈ citationArrays d := by
    rw [citationArrays]; exact List.mem_cons_self _ _
  have hm2 : d.why_citations ∈ citationArrays d := by
    rw [citationArrays]
    exact List.mem_cons_of_mem _ (List.mem_cons_self _ _)
  have hm3 : d.big_picture_citations ∈ citationArrays d := by
    rw [citationArrays]
    exact List.mem_cons_of_mem _ (List.mem_cons_of_mem _ (List.mem_cons_self _ _))
  have hbtn : d.by_the_numbers.map (fun r =>
      { r with citations :=
          remapList (buildMappingAux d.sources 1 (collectUsed d)).1 r.citations })
      = d.by_the_numbers := by
    have hpt : ∀ r ∈ d.by_the_numbers,
        { r with citations :=
            remapList (buildMappingAux d.sources 1 (collectUsed d)).1 r.citations }
          = r := by
      intro r hr
      have hmem : r.citations ∈ citationArrays d := by
        rw [citationArrays]
        exact List.mem_cons_of_mem _ (List.mem_cons_of_mem _
          (List.mem_cons_of_mem _
            (List.mem_append_left _ (List.mem_map_of_mem _ hr))))
      rw [harr _ hmem]
    exact (List.map_congr_left hpt).trans (List.map_id _)
  have hkw : d.keywords.map (fun k =>
      { k with source_ids :=
          remapList (buildMappingAux d.sources 1 (collectUsed d)).1 k.source_ids })
      = d.keywords := by
    have hpt : ∀ k ∈ d.keywords,
        { k with source_ids :=
            remapList (buildMappingAux d.sources 1 (collectUsed d)).1 k.source_ids }
          = k := by
      intro k hk
      have hmem : k.source_ids ∈ citationArrays d := by
        rw [citationArrays]
        exact List.mem_cons_of_mem _ (List.mem_cons_of_mem _
          (List.mem_cons_of_mem _ (List.mem_append_right _
            (List.mem_append_left _ (List.mem_map_of_mem _ hk)))))
      rw [harr _ hmem]
    exact (List.map_congr_left hpt).trans (List.map_id _)
  have hrhw : d.recent_hotwords.map (fun k =>
      { k with source_ids :=
          remapList (buildMappingAux d.sources 1 (collectUsed d)).1 k.source_ids })
      = d.recent_hotwords := by
    have hpt : ∀ k ∈ d.recent_hotwords,
        { k with source_ids :=
            remapList (buildMappingAux d.sources 1 (collectUsed d)).1 k.source_ids }
          = k := by
      intro k hk
      have hmem : k.source_ids ∈ citationArrays d := by
        rw [citationArrays]
        exact List.mem_cons_of_mem _ (List.mem_cons_of_mem _
          (List.mem_cons_of_mem _ (List.mem_append_right _
            (List.mem_append_right _
              (List.mem_append_left _ (List.mem_map_of_mem _ hk))))))
      rw [harr _ hmem]
    exact (List.map_congr_left hpt).trans (List.map_id _)
  have hrhs : d.recent_hotspots.map (fun k =>
      { k with source_ids :=
          remapList (buildMappingAux d.sources 1 (collectUsed d)).1 k.source_ids })
      = d.recent_hotspots := by
    have hpt : ∀ k ∈ d.recent_hotspots,
        { k with source_ids :=
            remapList (buildMappingAux d.sources 1 (collectUsed d)).1 k.source_ids }
          = k := by
      intro k hk
      have hmem : k.source_ids ∈ citationArrays d := by
        rw [citationArrays]
        exact List.mem_cons_of_mem _ (List.mem_cons_of_mem _
          (List.mem_cons_of_mem _ (List.mem_append_right _
            (List.mem_append_right _
              (List.mem_append_right _ (List.mem_map_of_mem _ hk))))))
      rw [harr _ hmem]
    exact (List.map_congr_left hpt).trans (List.map_id _)
  show ({ d with
    header := { d.header with
      lede_citations :=
        remapList (buildMappingAux d.sources 1 (collectUsed d)).1
          d.header.lede_citations }
    why_citations :=
      remapList (buildMappingAux d.sources 1 (collectUsed d)).1 d.why_citations
    big_picture_citations :=
      remapList (buildMappingAux d.sources 1 (collectUsed d)).1
        d.big_picture_citations
    by_the_numbers := d.by_the_numbers.map (fun r =>
      { r with citations :=
          remapList (buildMappingAux d.sources 1 (collectUsed d)).1 r.citations })
    keywords := d.keywords.map (fun k =>
      { k with source_ids :=
          remapList (buildMappingAux d.sources 1 (collectUsed d)).1 k.source_ids })
    recent_hotwords := d.recent_hotwords.map (fun k =>
      { k with source_ids :=
          remapList (buildMappingAux d.sources 1 (collectUsed d)).1 k.source_ids })
    recent_hotspots := d.recent_hotspots.map (fun k =>
      { k with source_ids :=
          remapList (buildMappingAux d.sources 1 (collectUsed d)).1 k.source_ids })
    sources := (buildMappingAux d.sources 1 (collectUsed d)).2 } : Doc) = d
  rw [harr _ hm1, harr _ hm2, harr _ hm3, hbtn, hkw, hrhw, hrhs, hmp2]

/-- C1: after `_normalize_sources_and_citations`, the sources carry ids
exactly 1..N; the referenced ids, in first-occurrence traversal order, are
exactly those source ids; every referenced id has exactly one matching
sources entry; citation arrays only shrink; and every id left in any array
has a sources entry (ids without a pool entry were filtered out). -/
theorem C1_normalize_sources_and_citations (obj : Doc) (pool : List SourceEntry) :
    ((normalizeSourcesAndCitations obj pool).sources.map (fun s => s.id)
        = intRange 1 (normalizeSourcesAndCitations obj pool).sources.length) ∧
    (collectUsed (normalizeSourcesAndCitations obj pool)
        = (normalizeSourcesAndCitations obj pool).sources.map (fun s => s.id)) ∧
    (∀ n ∈ collectUsed (normalizeSourcesAndCitations obj pool),
      ((normalizeSourcesAndCitations obj pool).sources.filter
          (fun s => s.id = n)).length = 1) ∧
    List.Forall₂ (fun o i => o.length ≤ i.length)
      (citationArrays (normalizeSourcesAndCitations obj pool))
      (citationArrays obj) ∧
    (∀ l ∈ citationArrays (normalizeSourcesAndCitations obj pool),
      ∀ n ∈ l, ∃ s ∈ (normalizeSourcesAndCitations obj pool).sources, s.id = n) := by
  have ha := normalize_source_ids obj pool
  have hb := normalize_collectUsed obj pool
  refine ⟨ha, hb, fun n hn => ?_, ?_, fun l hl n hn => ?_⟩
  · apply filter_id_length_one
    · rw [ha]
      exact intRange_nodup _ _
    · rw [← hb]
      exact hn
  · rw [citationArrays_normalize]
    apply forall2_map_le
    intro l _
    rw [remapList_eq]
    exact le_trans (dedupF_length_le _) (List.length_filterMap_le _ _)
  · have hmem : n ∈ collectUsed (normalizeSourcesAndCitations obj pool) := by
      rw [collectUsed_eq]
      exact mem_dedupF.2 (mem_listFlat.2 ⟨l, hl, hn⟩)
    rw [hb] at hmem
    rcases List.mem_map.1 hmem with ⟨s, hs, hsid⟩
    exact ⟨s, hs, hsid⟩

/-- C4: cached `(article_id, prompt_version)` rows keep their article out of
`need` (so out of every batch); recomputing over the grown DB makes zero
LLM calls; every stored row has a normalized one-liner (with title
fallback) hard-capped at 20 chars, tags clamped to `[0,3]`, and a `keep`
defaulted to `tag_sum ≥ threshold` when the model omitted it. -/
theorem C4_get_or_compute_one_liners (cleanText : String → String)
    (o₁ o₂ : List (Int × String) → List OlRawItem)
    (modelName ver : String) (b₁ b₂ th : Int)
    (db : List OneLinerRow) (articles : List Article) :
    (∀ a ∈ articles, 0 < a.id →
      (∃ r ∈ db, r.article_id = a.id ∧ r.prompt_version = ver) →
      a ∉ neededArticles db ver articles) ∧
    ((get_or_compute_one_liners cleanText o₂ modelName ver b₂ th
        (get_or_compute_one_liners cleanText o₁ modelName ver b₁ th db
          articles).2.1 articles).2.2 = 0) ∧
    (∀ (a : Article) (it : Option OlRawItem),
      ((mkOneLinerRow modelName ver th a it).one_liner
          = _normalize_one_liner
              (match it with | some i => i.one_liner | none => "") ∨
        (mkOneLinerRow modelName ver th a it).one_liner
          = _normalize_one_liner (strTake (pyStrip a.title) 20)) ∧
      (mkOneLinerRow modelName ver th a it).one_liner.length ≤ 20 ∧
      (0 ≤ (mkOneLinerRow modelName ver th a it).tags.finance ∧
        (mkOneLinerRow modelName ver th a it).tags.finance ≤ 3 ∧
        0 ≤ (mkOneLinerRow modelName ver th a it).tags.minsheng ∧
        (mkOneLinerRow modelName ver th a it).tags.minsheng ≤ 3 ∧
        0 ≤ (mkOneLinerRow modelName ver th a it).tags.tech ∧
        (mkOneLinerRow modelName ver th a it).tags.tech ≤ 3) ∧
      ((match it with | some i => i.keep | none => none) = (none : Option Bool) →
        (mkOneLinerRow modelName ver th a it).keep
          = _default_keep th (mkOneLinerRow modelName ver th a it).tags)) := by
  have hcachedMem : ∀ (db' : List OneLinerRow) (a : Article),
      a ∈ articles → 0 < a.id →
      (∃ r ∈ db', r.article_id = a.id ∧ r.prompt_version = ver) →
      a.id ∈ cachedIdsOf db' ver (articleIdsOf articles) := by
    rintro db' a hmem hpos ⟨r, hr, hrid, hrver⟩
    have hids : a.id ∈ articleIdsOf articles := by
      rw [articleIdsOf]
      apply List.mem_filter.2
      refine ⟨List.mem_filterMap.2 ⟨a, hmem, ?_⟩, by simpa using hpos⟩
      rw [if_pos (show a.id ≠ 0 by omega)]
    rw [cachedIdsOf]
    apply List.mem_map.2
    refine ⟨r, List.mem_filter.2 ⟨hr, ?_⟩, hrid⟩
    simp only [decide_eq_true_eq]
    refine ⟨?_, hrver, ?_⟩
    · rw [hrid]; exact hids
    · rw [hrid]; omega
  refine ⟨fun a hmem hpos hrow => ?_, ?_, fun a it => ?_⟩
  · rw [neededArticles]
    intro hcontra
    have := (List.mem_filter.1 hcontra).2
    simp only [decide_eq_true_eq] at this
    exact this (hcachedMem db a hmem hpos hrow)
  · by_cases hemp : articles.isEmpty
    · simp only [get_or_compute_one_liners, if_pos hemp]
    · by_cases hids : (articleIdsOf articles).isEmpty
      · simp only [get_or_compute_one_liners, if_neg hemp, if_pos hids]
      · have hrun1 : (get_or_compute_one_liners cleanText o₁ modelName ver b₁ th
            db articles).2.1
            = (runOlBatches cleanText o₁ modelName ver th
                (chunksOf (max 1 (min 12 b₁)).toNat
                  (neededArticles db ver articles)) db).1 := by
          simp only [get_or_compute_one_liners, if_neg hemp, if_neg hids]
        have hbn : 1 ≤ (max 1 (min 12 b₁)).toNat := by
          rw [Int.le_toNat] <;> omega
        set db1 := (get_or_compute_one_liners cleanText o₁ modelName ver b₁ th
          db articles).2.1 with hdb1
        have hneed2 : ∀ a ∈ neededArticles db1 ver articles, a.id ≤ 0 := by
          intro a ha
          rcases List.mem_filter.1 ha with ⟨hmem, hnc⟩
          simp only [decide_eq_true_eq] at hnc
          by_contra hpos0
          have hpos : 0 < a.id := by omega
          apply hnc
          apply hcachedMem db1 a hmem hpos
          by_cases hc : a.id ∈ cachedIdsOf db ver (articleIdsOf articles)
          · rcases List.mem_map.1 hc with ⟨r, hrf, hrid⟩
            rcases List.mem_filter.1 hrf with ⟨hrdb, hcond⟩
            simp only [decide_eq_true_eq] at hcond
            refine ⟨r, ?_, hrid, hcond.2.1⟩
            rw [hrun1]
            exact runOl_mem_mono _ _ _ _ _ _ _ _ hrdb
          · have haneed : a ∈ neededArticles db ver articles := by
              rw [neededArticles]
              apply List.mem_filter.2
              exact ⟨hmem, by simpa using hc⟩
            have haflat : a ∈ listFlat (chunksOf (max 1 (min 12 b₁)).toNat
                (neededArticles db ver articles)) := by
              rw [listFlat_chunksOf _ hbn]
              exact haneed
            obtain ⟨r, hr, hrid, hrver⟩ :=
              runOl_covers cleanText o₁ modelName ver th _ db a haflat hpos
            refine ⟨r, ?_, hrid, hrver⟩
            rw [hrun1]
            exact hr
        simp only [get_or_compute_one_liners, if_neg hemp, if_neg hids]
        apply runOl_calls_zero
        intro a ha
        rw [listFlat_chunksOf _ (by rw [Int.le_toNat] <;> omega)] at ha
        exact hneed2 a ha
  · refine ⟨?_, ?_, ?_, ?_⟩
    · simp only [mkOneLinerRow]
      by_cases h0 : _normalize_one_liner
          (match it with | some i => i.one_liner | none => "") = ""
      · right
        simp [h0]
      · left
        simp only [if_neg h0]
    · simp only [mkOneLinerRow]
      by_cases h0 : _normalize_one_liner
          (match it with | some i => i.one_liner | none => "") = ""
      · simp [h0]
        exact norm_one_liner_length _
      · simp only [if_neg h0]
        exact norm_one_liner_length _
    · cases it with
      | none =>
        refine ⟨by simp [mkOneLinerRow], by simp [mkOneLinerRow], by simp [mkOneLinerRow],
          by simp [mkOneLinerRow], by simp [mkOneLinerRow], by simp [mkOneLinerRow]⟩
      | some i =>
        refine ⟨?_, ?_, ?_, ?_, ?_, ?_⟩ <;>
          simp [mkOneLinerRow, clampTag] <;> omega
    · intro hkeep
      cases it with
      | none => rfl
      | some i =>
        simp only at hkeep
        simp only [mkOneLinerRow, hkeep]

theorem C4_get_or_compute_one_liners_witness :
    ((Article.mk 42 ("财政要闻") ("正文") ("") ("") none
        ∈ [Article.mk 42 ("财政要闻") ("正文") ("") ("") none]) ∧
      (0 < (42 : Int)) ∧
      (∃ r ∈ [OneLinerRow.mk 42 ("发放育儿补贴") (Tags.mk 2 1 0) true ("m") ("v1")],
        r.article_id = 42 ∧ r.prompt_version = "v1")) ∧
    (Article.mk 42 ("财政要闻") ("正文") ("") ("") none
      ∉ neededArticles
          [OneLinerRow.mk 42 ("发放育儿补贴") (Tags.mk 2 1 0) true ("m") ("v1")]
          "v1" [Article.mk 42 ("财政要闻") ("正文") ("") ("") none]) :=
  ⟨⟨by decide, by decide, by decide⟩,
    (C4_get_or_compute_one_liners id (fun _ => []) (fun _ => []) "m" "v1" 8 8 2
        [OneLinerRow.mk 42 ("发放育儿补贴") (Tags.mk 2 1 0) true ("m") ("v1")]
        [Article.mk 42 ("财政要闻") ("正文") ("") ("") none]).1
      (Article.mk 42 ("财政要闻") ("正文") ("") ("") none)
      (by decide) (by decide) (by decide)⟩

theorem C1_normalize_sources_and_citations_witness :
    (1 ∈ collectUsed (normalizeSourcesAndCitations normObj normPool)) ∧
    ((normalizeSourcesAndCitations normObj normPool).sources.filter
        (fun s => s.id = 1)).length = 1 :=
  ⟨by decide,
    (C1_normalize_sources_and_citations normObj normPool).2.2.1 1 (by decide)⟩

/-- C6: for every candidate article list, `_prefilter_articles` returns the
articles sorted by finance keyword-hit count descending; exactly those with
hit count `≥ min_finance_kw_hits` when at least 8 such articles exist, and
otherwise the top `min(len, 20)` articles by hit count. -/
theorem C6_prefilter_articles (minH : Int) (articles : List Article) :
    (prefilterArticles minH articles).Pairwise
      (fun a b => (articleHits b : Int) ≤ (articleHits a : Int)) ∧
    (8 ≤ (articles.filter (fun a => minH ≤ (articleHits a : Int))).length →
      (prefilterArticles minH articles).Perm
        (articles.filter (fun a => minH ≤ (articleHits a : Int)))) ∧
    ((articles.filter (fun a => minH ≤ (articleHits a : Int))).length < 8 →
      prefilterArticles minH articles
          = (sortDesc (fun a => (articleHits a : Int)) articles).take 20 ∧
        (prefilterArticles minH articles).length = min 20 articles.length) := by
  have hperm : (sortDesc (fun a => (articleHits a : Int)) articles).Perm articles :=
    perm_sortDesc _ articles
  have hfp : ((sortDesc (fun a => (articleHits a : Int)) articles).filter
        (fun a => minH ≤ (articleHits a : Int))).Perm
      (articles.filter (fun a => minH ≤ (articleHits a : Int))) := hperm.filter _
  have hlen := hfp.length_eq
  by_cases h8 : 8 ≤ ((sortDesc (fun a => (articleHits a : Int)) articles).filter
      (fun a => minH ≤ (articleHits a : Int))).length
  · have hres : prefilterArticles minH articles
        = (sortDesc (fun a => (articleHits a : Int)) articles).filter
            (fun a => minH ≤ (articleHits a : Int)) := by
      simp only [prefilterArticles, if_pos h8]
    refine ⟨?_, fun _ => ?_, fun hlt => ?_⟩
    · rw [hres]
      exact (sorted_sortDesc _ articles).filter _
    · rw [hres]; exact hfp
    · rw [hlen] at h8; omega
  · have hres : prefilterArticles minH articles
        = (sortDesc (fun a => (articleHits a : Int)) articles).take 20 := by
      simp only [prefilterArticles, if_neg h8]
      exact take_min_length _ 20
    refine ⟨?_, fun hge => ?_, fun _ => ?_⟩
    · rw [hres]
      exact pairwise_take 20 (sorted_sortDesc _ articles)
    · rw [hlen] at h8; omega
    · refine ⟨hres, ?_⟩
      rw [hres, List.length_take, hperm.length_eq]

theorem stripUnverifiedRows_fst (al : List String) :
    ∀ rows : List BtnRow,
      (stripUnverifiedRows al rows).1 = rows.filter (rowVerified al)
  | [] => rfl
  | row :: rest => by
    have hbad : ((extractNumberSpansLoose row.value).filter
          (fun n => normalize_number_string n ∉ al)).isEmpty
        = rowVerified al row := by
      by_cases h : rowVerified al row = true
      · rw [h, List.isEmpty_iff, List.filter_eq_nil_iff]
        simp only [rowVerified, List.all_eq_true, decide_eq_true_eq] at h
        intro n hn
        simpa using h n hn
      · have hf : rowVerified al row = false := by simpa using h
        rw [hf]
        simp only [rowVerified, List.all_eq_true, decide_eq_true_eq] at h
        push_neg at h
        rcases h with ⟨n, hn, hnal⟩
        rw [List.isEmpty_eq_false_iff_exists_mem]
        exact ⟨n, List.mem_filter.2 ⟨hn, by simpa using hnal⟩⟩
    simp only [stripUnverifiedRows, List.filter_cons, hbad]
    by_cases h : rowVerified al row = true
    · simp only [h, if_true, cond_true]
      rw [stripUnverifiedRows_fst al rest]
    · have hf : rowVerified al row = false := by simpa using h
      simp only [hf, Bool.false_eq_true, if_false, cond_false]
      exact stripUnverifiedRows_fst al rest

/-- C5: `strip_unverified_numbers_from_by_the_numbers` drops a
`by_the_numbers` row iff some loose number span of its value fails to
normalise into the allowed set; retained rows are the original rows,
unedited; Scenario C: with material containing "专项资金 500万元", a row
valued "500万元的专项资金" is kept and a row valued "800万元" is dropped. -/
theorem C5_strip_unverified_numbers (report : Doc) (allowed : List String) :
    ((strip_unverified_numbers_from_by_the_numbers report allowed).1
        = { report with by_the_numbers := (report.by_the_numbers.filter
              (rowVerified (allowed.map normalize_number_string))) }) ∧
    (∀ row ∈ report.by_the_numbers,
      (row ∈ (strip_unverified_numbers_from_by_the_numbers report
            allowed).1.by_the_numbers
        ↔ ∀ n ∈ extractNumberSpansLoose row.value,
            normalize_number_string n ∈ allowed.map normalize_number_string)) ∧
    ((strip_unverified_numbers_from_by_the_numbers scenarioDoc
        (extract_number_spans scenarioMaterial 80)).1.by_the_numbers
      = [btnRowKeep]) := by
  have hmain : (strip_unverified_numbers_from_by_the_numbers report allowed).1
      = { report with by_the_numbers := (report.by_the_numbers.filter
            (rowVerified (allowed.map normalize_number_string))) } := by
    rw [strip_unverified_numbers_from_by_the_numbers]
    by_cases hemp : report.by_the_numbers.isEmpty
    · rw [if_pos hemp]
      have hnil : report.by_the_numbers = [] := by
        simpa [List.isEmpty_iff] using hemp
      rcases report with ⟨_, _, _, _, _, _, _, _, btn, _, _, _, _, _, _, _, _, _, _, _⟩
      simp only at hnil
      subst hnil
      simp
    · rw [if_neg hemp]
      simp only [stripUnverifiedRows_fst]
  refine ⟨hmain, fun row hrow => ?_, by decide⟩
  rw [hmain]
  simp only [List.mem_filter, rowVerified, List.all_eq_true, decide_eq_true_eq]
  constructor
  · intro h n hn
    exact h.2 n hn
  · intro h
    exact ⟨hrow, h⟩

theorem C5_strip_unverified_numbers_witness :
    (btnRowKeep ∈ scenarioDoc.by_the_numbers) ∧
    (btnRowKeep ∈ (strip_unverified_numbers_from_by_the_numbers scenarioDoc
          (extract_number_spans scenarioMaterial 80)).1.by_the_numbers
      ↔ ∀ n ∈ extractNumberSpansLoose btnRowKeep.value,
          normalize_number_string n
            ∈ (extract_number_spans scenarioMaterial 80).map
                normalize_number_string) :=
  ⟨by decide,
    (C5_strip_unverified_numbers scenarioDoc
      (extract_number_spans scenarioMaterial 80)).2.1 btnRowKeep (by decide)⟩

theorem snippetsForSids_len_le (sa : List (Int × Article)) (sids : List Int) :
    (snippetsForSids sa sids).length ≤ 2 :=
  le_trans (List.length_filterMap_le _ _) (by simpa using List.length_take_le 2 sids)

/-- C9: the keywords section maps the top-3 hotspots, in their pre-sorted
order, to `{word = event, weight = hotness, hotness, citations =
len(source_ids), source_ids capped at 6, snippets = titles of the first 2
cited articles (≤ 4)}`. -/
theorem C9_extract_today_keywords (hs : List Hotspot)
    (sa : List (Int × Article))
    (hne : ∀ h ∈ hs.take 3, pyStrip h.event ≠ "") :
    extractTodayKeywords hs sa = (hs.take 3).map (mkTodayKeyword sa) ∧
    (∀ k ∈ extractTodayKeywords hs sa,
      ∃ h ∈ hs.take 3,
        k.word = pyStrip h.event ∧ k.weight = h.hotness ∧
        k.hotness = h.hotness ∧
        k.citations = ((digitIds h.source_ids).length : Int) ∧
        k.source_ids = (digitIds h.source_ids).take 6 ∧
        k.snippets = (snippetsForSids sa (digitIds h.source_ids)).take 4 ∧
        k.source_ids.length ≤ 6 ∧ k.snippets.length ≤ 2) ∧
    (extractTodayKeywords hs sa).length ≤ 3 := by
  have hloop : ∀ (l : List Hotspot), (∀ h ∈ l, pyStrip h.event ≠ "") →
      extractTodayKeywordsLoop sa l = l.map (mkTodayKeyword sa) := by
    intro l
    induction l with
    | nil => intro _; rfl
    | cons h rest ih =>
      intro hne2
      rw [extractTodayKeywordsLoop,
        if_neg (hne2 h (List.mem_cons_self h rest)), List.map_cons,
        ih (fun x hx => hne2 x (List.mem_cons_of_mem h hx))]
  have hmap : extractTodayKeywords hs sa = (hs.take 3).map (mkTodayKeyword sa) := by
    rw [extractTodayKeywords]
    by_cases hemp : hs.isEmpty
    · have : hs = [] := by simpa [List.isEmpty_iff] using hemp
      subst this
      simp
    · rw [if_neg hemp]
      exact hloop _ hne
  refine ⟨hmap, fun k hk => ?_, ?_⟩
  · rw [hmap] at hk
    rcases List.mem_map.1 hk with ⟨h, hh, rfl⟩
    refine ⟨h, hh, rfl, rfl, rfl, rfl, rfl, rfl, ?_, ?_⟩
    · simpa [mkTodayKeyword] using List.length_take_le 6 (digitIds h.source_ids)
    · have h1 : (snippetsForSids sa (digitIds h.source_ids)).length ≤ 2 :=
        snippetsForSids_len_le sa _
      have h2 := List.length_take 4 (snippetsForSids sa (digitIds h.source_ids))
      simp only [mkTodayKeyword]
      omega
  · rw [hmap, List.length_map]
    simpa using List.length_take_le 3 hs

theorem C9_extract_today_keywords_witness :
    (∀ h ∈ ([sampleHotspot] : List Hotspot).take 3, pyStrip h.event ≠ "") ∧
    extractTodayKeywords [sampleHotspot] []
      = ([sampleHotspot].take 3).map (mkTodayKeyword []) :=
  ⟨by decide, (C9_extract_today_keywords [sampleHotspot] [] (by decide)).1⟩

theorem exists_notin_of_three (l av : List String) (hnd : l.Nodup)
    (hlen : 3 ≤ l.length) (hav : av.length ≤ 2) : ∃ x ∈ l, x ∉ av := by
  match l, hlen with
  | a :: b :: c :: rest, _ =>
    have hab : a ≠ b := by
      have := List.nodup_cons.1 hnd
      simp only [List.mem_cons] at this
      exact fun h => this.1 (Or.inl h)
    have hac : a ≠ c := by
      have := List.nodup_cons.1 hnd
      simp only [List.mem_cons] at this
      exact fun h => this.1 (Or.inr (Or.inl h))
    have hbc : b ≠ c := by
      have := List.nodup_cons.1 (List.nodup_cons.1 hnd).2
      simp only [List.mem_cons] at this
      exact fun h => this.1 (Or.inl h)
    by_contra hno
    push_neg at hno
    have ha := hno a (by simp)
    have hb := hno b (by simp)
    have hc := hno c (by simp)
    match av, hav with
    | [], _ => simp at ha
    | [u], _ =>
      simp only [List.mem_cons, List.not_mem_nil, or_false] at ha hb
      exact hab (ha.trans hb.symm)
    | [u, v], _ =>
      simp only [List.mem_cons, List.not_mem_nil, or_false] at ha hb hc
      rcases ha with rfl | rfl <;> rcases hb with hb | hb <;>
        rcases hc with hc | hc <;> simp_all

theorem chosen_style_notin (ranked av : List String) (hnd : ranked.Nodup)
    (hlen : 3 ≤ ranked.length) (hav : av.length ≤ 2) :
    ((ranked.find? (fun s => s ∉ av)).getD (ranked.headD "")) ∉ av := by
  obtain ⟨x, hx, hpx⟩ := exists_notin_of_three ranked av hnd hlen hav
  have hsome : (ranked.find? (fun s => s ∉ av)).isSome := by
    rw [List.find?_isSome]
    exact ⟨x, hx, by simpa using hpx⟩
  obtain ⟨y, hy⟩ := Option.isSome_iff_exists.1 hsome
  rw [hy, Option.getD_some]
  have := List.find?_some hy
  simpa using this

theorem focusRanking_nodup (t : String) :
    (focusRanking t).2.Nodup ∧ 3 ≤ (focusRanking t).2.length := by
  unfold focusRanking
  by_cases h1 : (hasQSignal t && hasProcessSignal t) = true
  · rw [if_pos h1]; exact ⟨by decide, by decide⟩
  rw [if_neg h1]
  by_cases h2 : (hasTimeSignal t && hasProcessSignal t) = true
  · rw [if_pos h2]; exact ⟨by decide, by decide⟩
  rw [if_neg h2]
  by_cases h3 : hasChangeSignal t = true
  · rw [if_pos h3]; exact ⟨by decide, by decide⟩
  rw [if_neg h3]
  by_cases h4 : hasProcessSignal t = true
  · rw [if_pos h4]; exact ⟨by decide, by decide⟩
  rw [if_neg h4]
  by_cases h5 : hasNumSignal t = true
  · rw [if_pos h5]; exact ⟨by decide, by decide⟩
  rw [if_neg h5]
  exact ⟨by decide, by decide⟩

theorem leadVariants_adjacent_ne (i : Nat) (h : i < 10) :
    leadVariants.getD ((i + 1) % 10) "" ≠ leadVariants.getD i "" := by
  interval_cases i <;> decide

/-- C8: the style selector never picks a `focus_style` used in the last two
days; the `lead_variant` is the variant at index `md5(date|style) % 10`,
advanced by one (mod 10) exactly when that variant equals yesterday's; so
with yesterday's variant supplied, today's differs from it. -/
theorem C8_choose_focus_style (dateIso : String) (pa : List PerArticleSummary)
    (rfs rlv : List String) :
    ((chooseFocusStyle dateIso pa rfs rlv).2.1 ∉ rfs.take 2) ∧
    ((chooseFocusStyle dateIso pa rfs rlv).2.2 =
      (if rlv ≠ [] ∧ leadVariants.getD
            (focusStyleIdx dateIso (chooseFocusStyle dateIso pa rfs rlv).2.1) ""
          = rlv.headD "" then
        leadVariants.getD
          ((focusStyleIdx dateIso (chooseFocusStyle dateIso pa rfs rlv).2.1 + 1) % 10) ""
      else leadVariants.getD
        (focusStyleIdx dateIso (chooseFocusStyle dateIso pa rfs rlv).2.1) "")) ∧
    (∀ y, rlv.head? = some y → (chooseFocusStyle dateIso pa rfs rlv).2.2 ≠ y) := by
  have hnd := focusRanking_nodup
    (strTake (pyStrip (joinSep " " (pa.map (fun it => it.summary)))) 8000)
  have h1 : (chooseFocusStyle dateIso pa rfs rlv).2.1 ∉ rfs.take 2 :=
    chosen_style_notin _ _ (hnd).1 (hnd).2 (List.length_take_le 2 rfs)
  have h2 : (chooseFocusStyle dateIso pa rfs rlv).2.2 =
      (if rlv ≠ [] ∧ leadVariants.getD
            (focusStyleIdx dateIso (chooseFocusStyle dateIso pa rfs rlv).2.1) ""
          = rlv.headD "" then
        leadVariants.getD
          ((focusStyleIdx dateIso (chooseFocusStyle dateIso pa rfs rlv).2.1 + 1) % 10) ""
      else leadVariants.getD
        (focusStyleIdx dateIso (chooseFocusStyle dateIso pa rfs rlv).2.1) "") := rfl
  refine ⟨h1, h2, fun y hy => ?_⟩
  have hne : rlv ≠ [] := by rintro rfl; simp at hy
  have hhd : rlv.headD "" = y := by
    rcases rlv with _ | ⟨z, zs⟩
    · simp at hy
    · simp only [List.head?_cons, Option.some.injEq] at hy
      simp [List.headD, hy]
  rw [h2]
  have hilt : focusStyleIdx dateIso (chooseFocusStyle dateIso pa rfs rlv).2.1 < 10 :=
    Nat.mod_lt _ (by norm_num)
  by_cases hc : leadVariants.getD
      (focusStyleIdx dateIso (chooseFocusStyle dateIso pa rfs rlv).2.1) "" = y
  · rw [if_pos ⟨hne, by rw [hhd]; exact hc⟩, ← hc]
    exact leadVariants_adjacent_ne _ hilt
  · rw [if_neg]
    · exact hc
    · rintro ⟨_, hcontra⟩
      rw [hhd] at hcontra
      exact hc hcontra

theorem C8_choose_focus_style_witness :
    (((["v1_numbers_first"] : List String).head? = some "v1_numbers_first") ∧
      (chooseFocusStyle "2026-01-02" [] ["data_snapshot", "action_chain"]
          ["v1_numbers_first"]).2.2 ≠ "v1_numbers_first") ∧
    ((chooseFocusStyle "2026-01-02" [] ["data_snapshot", "action_chain"]
        ["v1_numbers_first"]).2.1
      ∉ (["data_snapshot", "action_chain"] : List String).take 2) :=
  ⟨⟨rfl, (C8_choose_focus_style "2026-01-02" [] ["data_snapshot", "action_chain"]
      ["v1_numbers_first"]).2.2 "v1_numbers_first" rfl⟩,
    (C8_choose_focus_style "2026-01-02" [] ["data_snapshot", "action_chain"]
      ["v1_numbers_first"]).1⟩

theorem C6_prefilter_articles_witness :
    (8 ≤ ((List.replicate 8
        (Article.mk 1 ("财政预算公开") ("") ("") ("") none)).filter
          (fun a => (2 : Int) ≤ (articleHits a : Int))).length) ∧
    (prefilterArticles 2 (List.replicate 8
        (Article.mk 1 ("财政预算公开") ("") ("") ("") none))).Perm
      ((List.replicate 8
        (Article.mk 1 ("财政预算公开") ("") ("") ("") none)).filter
          (fun a => (2 : Int) ≤ (articleHits a : Int))) :=
  ⟨by decide, (C6_prefilter_articles 2 _).2.1 (by decide)⟩

/-- C3: recent-hotspot extraction — with fewer than three gate-passing
cluster items the result is empty and the clustering LLM is never called;
every returned hotspot carries between two and six source ids, all drawn
from the `source_articles` pool, and its hotness is the locally computed
`min(100, 20 + docs·18 + accs·10)` over its own source ids; the output is
sorted by hotness descending and holds at most `top_k` items with `top_k`
clamped to `[3, 8]`. -/
theorem C3_extract_recent_hotspots (cleanText : String → String)
    (olOracle : List (Int × String) → List OlRawItem)
    (clOracle : List ClusterItem → List EvRaw)
    (dateStr : Option Article → String) (modelName ver : String)
    (batch_raw ol_th : Int) (db : List OneLinerRow) (srcs : List SourceEntry)
    (sa : List (Int × Article)) (end_utc top_k_raw tag_raw max_cl_raw : Int) :
    ((hsClusterItems cleanText olOracle modelName ver batch_raw ol_th tag_raw
        db srcs sa).length < 3 →
      extractRecentHotspots cleanText olOracle clOracle dateStr modelName ver
        batch_raw ol_th db srcs sa end_utc top_k_raw tag_raw max_cl_raw
        = ([], 0)) ∧
    (∀ h ∈ (extractRecentHotspots cleanText olOracle clOracle dateStr
        modelName ver batch_raw ol_th db srcs sa end_utc top_k_raw tag_raw
        max_cl_raw).1,
      2 ≤ h.source_ids.length ∧ h.source_ids.length ≤ 6 ∧
      (∀ sid ∈ h.source_ids, sid ∈ sa.map Prod.fst) ∧
      h.hotness = hotnessScore (hsSidMeta sa srcs) h.source_ids) ∧
    (extractRecentHotspots cleanText olOracle clOracle dateStr modelName ver
        batch_raw ol_th db srcs sa end_utc top_k_raw tag_raw
        max_cl_raw).1.Pairwise (fun a b => b.hotness ≤ a.hotness) ∧
    (extractRecentHotspots cleanText olOracle clOracle dateStr modelName ver
        batch_raw ol_th db srcs sa end_utc top_k_raw tag_raw
        max_cl_raw).1.length ≤ (max 3 (min 8 top_k_raw)).toNat := by
  refine ⟨?_, ?_, ?_, ?_⟩
  · intro hlt
    simp only [extractRecentHotspots]
    by_cases h1 : (hsArticles sa srcs).isEmpty
    · rw [if_pos h1]
    · rw [if_neg h1, if_pos hlt]
  · rcases extract_shape cleanText olOracle clOracle dateStr modelName ver
      batch_raw ol_th db srcs sa end_utc top_k_raw tag_raw max_cl_raw with
      hnil | ⟨items, hsub, heq⟩
    · rw [hnil]
      intro h hh
      cases hh
    · rw [heq]
      intro h hh
      have hh2 : h ∈ (cluster_recent_hotspots_llm clOracle items
          (max 3 (min 8 top_k_raw))).1.filterMap
            (hotspotOf dateStr (hsSidMeta sa srcs) sa) :=
        (perm_sortDesc _ _).mem_iff.1 (List.take_subset _ _ hh)
      rcases List.mem_filterMap.1 hh2 with ⟨ev, hev, hsome⟩
      rcases hotspotOf_spec hsome with ⟨hlen2, hsid, hhot⟩
      rcases cluster_llm_spec clOracle items _ ev hev with ⟨hlen6, hsub2⟩
      have htake : ev.source_ids.take 6 = ev.source_ids :=
        List.take_of_length_le hlen6
      rw [hsid, htake]
      refine ⟨hlen2, hlen6, ?_, hhot⟩
      intro sid hsidm
      rcases clusterValidIds_spec (hsub2 sid hsidm) with ⟨it, hit, hiteq⟩
      rw [← hiteq]
      exact hsClusterItems_sid_mem (hsub it hit)
  · rcases extract_shape cleanText olOracle clOracle dateStr modelName ver
      batch_raw ol_th db srcs sa end_utc top_k_raw tag_raw max_cl_raw with
      hnil | ⟨items, hsub, heq⟩
    · rw [hnil]
      exact List.Pairwise.nil
    · rw [heq]
      exact pairwise_take _ (sorted_sortDesc _ _)
  · rcases extract_shape cleanText olOracle clOracle dateStr modelName ver
      batch_raw ol_th db srcs sa end_utc top_k_raw tag_raw max_cl_raw with
      hnil | ⟨items, hsub, heq⟩
    · rw [hnil]
      simp
    · rw [heq]
      exact List.length_take_le _ _

theorem C3_extract_recent_hotspots_witness :
    (hsClusterItems (fun s => s) (fun _ => []) "m" "v" 6 2 2 [] [] []).length
      < 3 ∧
    extractRecentHotspots (fun s => s) (fun _ => []) (fun _ => [])
      (fun _ => "") "m" "v" 6 2 [] [] [] 0 8 2 120 = ([], 0) :=
  ⟨by decide,
   (C3_extract_recent_hotspots (fun s => s) (fun _ => []) (fun _ => [])
     (fun _ => "") "m" "v" 6 2 [] [] [] 0 8 2 120).1 (by decide)⟩

/-- C7 counterexample: the per-article summarizer can emit an entry whose
`summary` is empty — an article with an empty title and snippet-free
content yields `summary = ""` when the LLM call fails — refuting "the
summary is always non-empty". -/
theorem C7_counterexample :
    ∃ pa ∈ summarizePerArticle (fun s => s) (fun _ _ _ => "") 100 10
      [c7src] [(1, c7article)], pa.summary = "" := by
  decide

/-- C7 (amended): every emitted per-article entry has `title` and `summary`
of at most 120 characters, and its `summary` can be empty only when the
article's stripped title is empty too — so a non-empty title does guarantee
a non-empty summary, but title-less articles refute the unconditional
claim. -/
theorem C7_summarize_per_article (cleanText : String → String)
    (llm : Int → String → String → String) (pc ms : Nat)
    (srcs : List SourceEntry) (sa : List (Int × Article)) :
    ∀ pa ∈ summarizePerArticle cleanText llm pc ms srcs sa,
      pa.summary.data.length ≤ 120 ∧ pa.title.data.length ≤ 120 ∧
      (pa.summary = "" → pa.title = "") := by
  intro pa hpa
  simp only [summarizePerArticle] at hpa
  rcases List.mem_filterMap.1 hpa with ⟨s, hs, hsome⟩
  exact perArticleEntry_spec hsome

theorem C7_summarize_per_article_witness :
    c7entry ∈ summarizePerArticle (fun s => s) (fun _ _ _ => "") 100 10
      [c7src] [(1, c7articleT)] ∧
    (c7entry.summary.data.length ≤ 120 ∧ c7entry.title.data.length ≤ 120 ∧
      (c7entry.summary = "" → c7entry.title = "")) :=
  ⟨by decide,
   C7_summarize_per_article (fun s => s) (fun _ _ _ => "") 100 10
     [c7src] [(1, c7articleT)] c7entry (by decide)⟩

set_option maxHeartbeats 4000000 in
/-- C10: every non-null briefing returned by `generate` has empty
`by_the_numbers` and `word_cloud` — the fields are cleared before the
hotspot/normalization stages and re-cleared after the guardrail stage —
and the numeric-hallucination guard is the identity on a document whose
table is already empty, so it can neither drop nor retain a row of the
final output. -/
theorem C10_generate_clears_numbers
    (cleanText : String → String) (phrases : List String)
    (olOracle : List (Int × String) → List OlRawItem)
    (clOracle : List ClusterItem → List EvRaw)
    (sumLlm : Int → String → String → String)
    (draft : Nat → String → String) (parse : String → Option Doc)
    (judge : String → List String → Bool) (modelName ver : String)
    (min_hits batch_raw ol_th top_k_raw tag_raw max_cl_raw : Int)
    (max_total bm_per pa_chars ms : Nat) (db : List OneLinerRow)
    (d : String) (finance_articles all_articles : List Article)
    (end_utc window_days_raw : Int)
    (recent_focus_styles recent_lead_variants recent_focus_topics
      : List String) :
    (∀ doc : Doc,
      generate cleanText phrases olOracle clOracle sumLlm draft parse judge
          modelName ver min_hits batch_raw ol_th top_k_raw tag_raw max_cl_raw
          max_total bm_per pa_chars ms db d finance_articles all_articles
          end_utc window_days_raw recent_focus_styles recent_lead_variants
          recent_focus_topics = some doc →
      doc.by_the_numbers = [] ∧ doc.word_cloud = []) ∧
    (∀ (doc : Doc) (allowed : List String), doc.by_the_numbers = [] →
      strip_unverified_numbers_from_by_the_numbers doc allowed
        = (doc, [])) := by
  constructor
  · intro doc h
    simp only [generate] at h
    split at h
    · cases h
    · split at h
      · cases h
      · cases h
        exact ⟨rfl, rfl⟩
  · intro doc allowed h
    rw [strip_unverified_numbers_from_by_the_numbers]
    rw [if_pos (by simp [h])]

set_option maxHeartbeats 4000000 in
set_option maxRecDepth 100000 in
theorem C10_generate_clears_numbers_witness :
    c10gen = some c10doc ∧
    (c10doc.by_the_numbers = [] ∧ c10doc.word_cloud = []) ∧
    (emptyDoc.by_the_numbers = [] ∧
      strip_unverified_numbers_from_by_the_numbers emptyDoc ["500万元"]
        = (emptyDoc, [])) :=
  ⟨by decide,
   (C10_generate_clears_numbers (fun s => s) ["绝密"] (fun _ => [])
     (fun _ => []) (fun _ _ _ => "") (fun _ _ => "draft") (fun _ => none)
     (fun _ _ => false) "m" "v" 1 6 2 8 2 120 400 100 100 3 [] "2025-10-12"
     c10Arts [] 1700000100 3 [] [] []).1 c10doc (by decide),
   rfl,
   (C10_generate_clears_numbers (fun s => s) ["绝密"] (fun _ => [])
     (fun _ => []) (fun _ _ _ => "") (fun _ _ => "draft") (fun _ => none)
     (fun _ _ => false) "m" "v" 1 6 2 8 2 120 400 100 100 3 [] "2025-10-12"
     c10Arts [] 1700000100 3 [] [] []).2 emptyDoc ["500万元"] rfl⟩

end ZPulse
